import Mathlib

/-!
# LineRasterizer (DIKUgraphics, `linerasterizer.cpp`)

A shallow embedding of the incremental line scan-converter and proofs about it.

Modelling conventions

* The arithmetic of the member functions is embedded on the mathematical integers `Int`.
  C++ leaves signed overflow undefined and the compiled code wraps modulo `2 ^ 32`; the two
  agree as long as no operation overflows, which is the case for every line whose deltas
  satisfy `|x2 - x1| < 2 ^ 30` and `|y2 - y1| < 2 ^ 30`.  A theorem on the values that a
  line of arbitrary `int` end points produces carries such a range as a hypothesis.
  `initialize_line_int32` is `initialize_line` with the 32-bit wrap spelled out; it shows
  what is stored outside that range.
* `glm::vec3` holds three binary32 numbers.  Every number the rasterizer puts into one is
  the conversion `float` of an `int`, or the constant `0.0f`, hence an integer; `vec3` keeps
  these integer values, and `float` is the rounding of the conversion (to nearest, ties to
  even).  The conversion is exact up to magnitude `2 ^ 24 = 16777216`.
* A member function that mutates the object is a function from the state
  before the call to the state after it; a `const` member function is a
  function of the state alone.
* `throw std::runtime_error(msg)` is `Except.error ⟨msg⟩`.
* The `while` loop of `AllFragments` is embedded with a fuel argument: `none`
  means the fuel ran out before the loop condition became false.
-/

set_option autoImplicit false

/-- The spacing of the binary32 numbers around a magnitude `n`: the least power of two `u`
(found by doubling, starting from the third argument) with `n ≤ 2 ^ 24 * u`.  The first
argument bounds the number of doublings; binary32 has no spacing above `2 ^ 104`. -/
def float_ulp : Nat → Nat → Nat → Nat
  | 0, _, u => u
  | fuel + 1, n, u => if n ≤ 16777216 * u then u else float_ulp fuel n (2 * u)

/-- The conversion `float(v)` of an `int` to binary32: `v` rounded to the nearest number
with a 24-bit significand, a tie going to the even significand.  The result is an integer
for every `int`, and it is kept as one. -/
def float (v : Int) : Int :=
  let n := Int.natAbs v
  let u := float_ulp 104 n 1
  let q := n / u
  let r := n % u
  let q := if 2 * r < u then q else if 2 * r > u then q + 1 else if q % 2 = 0 then q else q + 1
  if v < 0 then -((q * u : Nat) : Int) else ((q * u : Nat) : Int)

/-- The three components of a `glm::vec3`.  Each holds a binary32 number; all numbers that
occur are integers (see `float`). -/
structure vec3 where
  x : Int
  y : Int
  z : Int
  deriving DecidableEq, Repr

/-- The exception type `std::runtime_error`, carrying its message. -/
structure runtime_error where
  what : String
  deriving DecidableEq, Repr

/-- The two member functions the pointer `innerloop` can point to. -/
inductive Innerloop where
  | x_dominant_innerloop
  | y_dominant_innerloop
  deriving DecidableEq, Repr

/-- The data members used by `linerasterizer.cpp`. -/
structure LineRasterizer where
  x_start : Int
  y_start : Int
  x_stop : Int
  y_stop : Int
  x_current : Int
  y_current : Int
  dx : Int
  dy : Int
  x_step : Int
  y_step : Int
  abs_2dx : Int
  abs_2dy : Int
  d : Int
  valid : Bool
  innerloop : Innerloop

namespace LineRasterizer

/-- The private member function `initialize_line(x1, y1, x2, y2)`.  Each assignment of the
source binds the new value of the member it assigns, in the order of the source; the object
is put together from these values at the end.  Every member is assigned. -/
def initialize_line (self : LineRasterizer) (x1 y1 x2 y2 : Int) : LineRasterizer :=
  let x_start := x1
  let y_start := y1
  let x_stop := x2
  let y_stop := y2
  let x_current := x_start
  let y_current := y_start
  let dx := x_stop - x_start
  let dy := y_stop - y_start
  let x_step : Int := if dx ≥ 0 then 1 else -1
  let y_step : Int := if dy ≥ 0 then 1 else -1
  let dx : Int := Int.natAbs dx
  let dy : Int := Int.natAbs dy
  let abs_2dx := 2 * dx
  let abs_2dy := 2 * dy
  let valid := true
  if dx ≥ dy then
    let d := abs_2dy - dx
    let innerloop := Innerloop.x_dominant_innerloop
    { self with
      x_start := x_start, y_start := y_start, x_stop := x_stop, y_stop := y_stop,
      x_current := x_current, y_current := y_current, dx := dx, dy := dy,
      x_step := x_step, y_step := y_step, abs_2dx := abs_2dx, abs_2dy := abs_2dy,
      d := d, valid := valid, innerloop := innerloop }
  else
    let d := abs_2dx - dy
    let innerloop := Innerloop.y_dominant_innerloop
    { self with
      x_start := x_start, y_start := y_start, x_stop := x_stop, y_stop := y_stop,
      x_current := x_current, y_current := y_current, dx := dx, dy := dy,
      x_step := x_step, y_step := y_step, abs_2dx := abs_2dx, abs_2dy := abs_2dy,
      d := d, valid := valid, innerloop := innerloop }

/-- The constructor `LineRasterizer(x1, y1, x2, y2)`.  It runs `initialize_line` on the
freshly allocated object, whose members hold the indeterminate values `uninit`. -/
def new (uninit : LineRasterizer) (x1 y1 x2 y2 : Int) : LineRasterizer :=
  initialize_line uninit x1 y1 x2 y2

/-- The member function `Init(x1, y1, x2, y2)`. -/
def Init (self : LineRasterizer) (x1 y1 x2 y2 : Int) : LineRasterizer :=
  initialize_line self x1 y1 x2 y2

/-- The member function `MoreFragments() const`. -/
def MoreFragments (self : LineRasterizer) : Bool :=
  self.valid

/-- The private member function `x_dominant_innerloop()`. -/
def x_dominant_innerloop (self : LineRasterizer) : LineRasterizer :=
  if self.x_current = self.x_stop then
    { self with valid := false }
  else
    let self :=
      if self.d > 0 then
        let self := { self with y_current := self.y_current + self.y_step }
        { self with d := self.d - self.abs_2dx }
      else self
    let self := { self with x_current := self.x_current + self.x_step }
    { self with d := self.d + self.abs_2dy }

/-- The private member function `y_dominant_innerloop()`. -/
def y_dominant_innerloop (self : LineRasterizer) : LineRasterizer :=
  if self.y_current = self.y_stop then
    { self with valid := false }
  else
    let self :=
      if self.d > 0 then
        let self := { self with x_current := self.x_current + self.x_step }
        { self with d := self.d - self.abs_2dy }
      else self
    let self := { self with y_current := self.y_current + self.y_step }
    { self with d := self.d + self.abs_2dx }

/-- The member function `NextFragment()`: one call through the member-function pointer. -/
def NextFragment (self : LineRasterizer) : LineRasterizer :=
  match self.innerloop with
  | Innerloop.x_dominant_innerloop => x_dominant_innerloop self
  | Innerloop.y_dominant_innerloop => y_dominant_innerloop self

/-- The member function `x() const`. -/
def x (self : LineRasterizer) : Except runtime_error Int :=
  if !self.valid then
    Except.error ⟨"LineRasterizer::x(): Invalid State"⟩
  else
    Except.ok self.x_current

/-- The member function `y() const`. -/
def y (self : LineRasterizer) : Except runtime_error Int :=
  if !self.valid then
    Except.error ⟨"LineRasterizer::y(): Invalid State"⟩
  else
    Except.ok self.y_current

/-- The member function `Fragment() const`: `glm::vec3(float(x()), float(y()), 0.0f)`.  The
two accessor calls are written in the order of the constructor arguments; C++ leaves their
order open, and both fail in the same states. -/
def Fragment (self : LineRasterizer) : Except runtime_error vec3 :=
  match x self with
  | Except.error e => Except.error e
  | Except.ok xv =>
    match y self with
    | Except.error e => Except.error e
    | Except.ok yv => Except.ok ⟨float xv, float yv, 0⟩

/-- The `while` loop of `AllFragments()`, started with the vector `points` collected so
far.  The statement `glm::vec3 point(this->x(), this->y(), 0.0f)` converts the two `int`
results to `float`.  The result is the outcome of the call (the vector, or the exception that left the
loop) together with the state of the object afterwards; `none` when `fuel` iterations did
not reach the end of the loop. -/
def AllFragments_while :
    Nat → LineRasterizer → List vec3 → Option (Except runtime_error (List vec3) × LineRasterizer)
  | 0, _, _ => none
  | fuel + 1, self, points =>
    if MoreFragments self then
      match x self with
      | Except.error e => some (Except.error e, self)
      | Except.ok xv =>
        match y self with
        | Except.error e => some (Except.error e, self)
        | Except.ok yv =>
          let point : vec3 := ⟨float xv, float yv, 0⟩
          let points := points ++ [point]
          let self := NextFragment self
          AllFragments_while fuel self points
    else
      some (Except.ok points, self)

/-- The member function `AllFragments()`. -/
def AllFragments (fuel : Nat) (self : LineRasterizer) :
    Option (Except runtime_error (List vec3) × LineRasterizer) :=
  AllFragments_while fuel self []

end LineRasterizer

/-! ## The 32-bit arithmetic of the compiled code -/

/-- The value a 32-bit two's-complement `int` holds when the exact result of an operation
is `v`. -/
def int32 (v : Int) : Int :=
  (v + 2147483648) % 4294967296 - 2147483648

namespace LineRasterizer

/-- The member function `initialize_line(x1, y1, x2, y2)` with the result of every `int`
operation reduced to 32 bits, as the compiled code computes it.  The arguments are `int`
values. -/
def initialize_line_int32 (self : LineRasterizer) (x1 y1 x2 y2 : Int) : LineRasterizer :=
  let x_start := x1
  let y_start := y1
  let x_stop := x2
  let y_stop := y2
  let x_current := x_start
  let y_current := y_start
  let dx := int32 (x_stop - x_start)
  let dy := int32 (y_stop - y_start)
  let x_step : Int := if dx ≥ 0 then 1 else -1
  let y_step : Int := if dy ≥ 0 then 1 else -1
  let dx : Int := int32 (Int.natAbs dx)
  let dy : Int := int32 (Int.natAbs dy)
  let abs_2dx := int32 (2 * dx)
  let abs_2dy := int32 (2 * dy)
  let valid := true
  if dx ≥ dy then
    let d := int32 (abs_2dy - dx)
    let innerloop := Innerloop.x_dominant_innerloop
    { self with
      x_start := x_start, y_start := y_start, x_stop := x_stop, y_stop := y_stop,
      x_current := x_current, y_current := y_current, dx := dx, dy := dy,
      x_step := x_step, y_step := y_step, abs_2dx := abs_2dx, abs_2dy := abs_2dy,
      d := d, valid := valid, innerloop := innerloop }
  else
    let d := int32 (abs_2dx - dy)
    let innerloop := Innerloop.y_dominant_innerloop
    { self with
      x_start := x_start, y_start := y_start, x_stop := x_stop, y_stop := y_stop,
      x_current := x_current, y_current := y_current, dx := dx, dy := dy,
      x_step := x_step, y_step := y_step, abs_2dx := abs_2dx, abs_2dy := abs_2dy,
      d := d, valid := valid, innerloop := innerloop }

end LineRasterizer

/-! ## Auxiliary definitions used in the proofs -/

namespace LineRasterizer

/-- The current position of a state as a point: `(x_current, y_current, 0)`. -/
def current (self : LineRasterizer) : vec3 :=
  ⟨self.x_current, self.y_current, 0⟩

/-- The fragment a valid state shows: the current position converted to `float`. -/
def fragment (self : LineRasterizer) : vec3 :=
  ⟨float self.x_current, float self.y_current, 0⟩

/-- The step direction `initialize_line` derives from a signed delta. -/
def stepOf (delta : Int) : Int :=
  if delta ≥ 0 then 1 else -1

/-- Whether `initialize_line` selects the x-dominant inner loop for the line. -/
def xDominant (x1 y1 x2 y2 : Int) : Bool :=
  decide ((Int.natAbs (x2 - x1) : Int) ≥ (Int.natAbs (y2 - y1) : Int))

/-- The absolute delta of the dominant axis. -/
def majorLen (x1 y1 x2 y2 : Int) : Nat :=
  if xDominant x1 y1 x2 y2 then Int.natAbs (x2 - x1) else Int.natAbs (y2 - y1)

/-- The absolute delta of the minor axis. -/
def minorLen (x1 y1 x2 y2 : Int) : Nat :=
  if xDominant x1 y1 x2 y2 then Int.natAbs (y2 - y1) else Int.natAbs (x2 - x1)

/-- The number of minor-axis steps taken during the first `k` calls of an inner loop whose
dominant delta is `A` and minor delta is `B`: the decision variable before call `k + 1` is
`2 * B * (k + 1) - A * (2 * m + 1)` with `m` the steps taken so far, and the minor axis
steps when it is positive. -/
def minorSteps (A B : Int) : Nat → Int
  | 0 => 0
  | k + 1 =>
    if 2 * B * ((k : Int) + 1) - A * (2 * minorSteps A B k + 1) > 0 then minorSteps A B k + 1
    else minorSteps A B k

/-- The state of the rasterizer of the line `(x1,y1) -> (x2,y2)` that has advanced `k` times
on its dominant axis and `m` times on its minor axis, with validity flag `v`. -/
def reached (x1 y1 x2 y2 : Int) (k : Nat) (m : Int) (v : Bool) : LineRasterizer :=
  { x_start := x1
    y_start := y1
    x_stop := x2
    y_stop := y2
    x_current :=
      if xDominant x1 y1 x2 y2 then x1 + stepOf (x2 - x1) * k else x1 + stepOf (x2 - x1) * m
    y_current :=
      if xDominant x1 y1 x2 y2 then y1 + stepOf (y2 - y1) * m else y1 + stepOf (y2 - y1) * k
    dx := Int.natAbs (x2 - x1)
    dy := Int.natAbs (y2 - y1)
    x_step := stepOf (x2 - x1)
    y_step := stepOf (y2 - y1)
    abs_2dx := 2 * (Int.natAbs (x2 - x1) : Int)
    abs_2dy := 2 * (Int.natAbs (y2 - y1) : Int)
    d := 2 * (minorLen x1 y1 x2 y2 : Int) * ((k : Int) + 1)
          - (majorLen x1 y1 x2 y2 : Int) * (2 * m + 1)
    valid := v
    innerloop :=
      if xDominant x1 y1 x2 y2 then Innerloop.x_dominant_innerloop
      else Innerloop.y_dominant_innerloop }

/-- The `k`-th point of the line: `k` steps along the dominant axis and the matching number
of steps along the minor axis. -/
def linePoint (x1 y1 x2 y2 : Int) (k : Nat) : vec3 :=
  current (reached x1 y1 x2 y2 k
    (minorSteps (majorLen x1 y1 x2 y2) (minorLen x1 y1 x2 y2) k) true)

/-- The `k`-th fragment of the line: the `k`-th point converted to `float`. -/
def lineFragment (x1 y1 x2 y2 : Int) (k : Nat) : vec3 :=
  fragment (reached x1 y1 x2 y2 k
    (minorSteps (majorLen x1 y1 x2 y2) (minorLen x1 y1 x2 y2) k) true)

/-- The progress measure of the drain loop: the distance from the dominant-axis current
coordinate to its stop coordinate, plus one while `valid` is true. -/
def remaining (self : LineRasterizer) : Nat :=
  (match self.innerloop with
    | Innerloop.x_dominant_innerloop => Int.natAbs (self.x_stop - self.x_current)
    | Innerloop.y_dominant_innerloop => Int.natAbs (self.y_stop - self.y_current))
  + (if self.valid then 1 else 0)

/-- An object whose members are all zero: a sample of the indeterminate contents an object
has before `initialize_line` runs on it for the first time. -/
def zeroed : LineRasterizer :=
  { x_start := 0, y_start := 0, x_stop := 0, y_stop := 0, x_current := 0, y_current := 0,
    dx := 0, dy := 0, x_step := 0, y_step := 0, abs_2dx := 0, abs_2dy := 0, d := 0,
    valid := false, innerloop := Innerloop.x_dominant_innerloop }

/-- The state with the roles of the two axes exchanged: every x member holds what the y
member held and conversely, and the inner loop is the other one. -/
def mirror (self : LineRasterizer) : LineRasterizer :=
  { x_start := self.y_start
    y_start := self.x_start
    x_stop := self.y_stop
    y_stop := self.x_stop
    x_current := self.y_current
    y_current := self.x_current
    dx := self.dy
    dy := self.dx
    x_step := self.y_step
    y_step := self.x_step
    abs_2dx := self.abs_2dy
    abs_2dy := self.abs_2dx
    d := self.d
    valid := self.valid
    innerloop :=
      match self.innerloop with
      | Innerloop.x_dominant_innerloop => Innerloop.y_dominant_innerloop
      | Innerloop.y_dominant_innerloop => Innerloop.x_dominant_innerloop }

end LineRasterizer

/-! ## Lemmas -/

namespace LineRasterizer

theorem xDominant_iff (x1 y1 x2 y2 : Int) :
    xDominant x1 y1 x2 y2 = true ↔ Int.natAbs (y2 - y1) ≤ Int.natAbs (x2 - x1) := by
  simp [xDominant, -Int.natCast_natAbs]

theorem minorLen_le_majorLen (x1 y1 x2 y2 : Int) :
    minorLen x1 y1 x2 y2 ≤ majorLen x1 y1 x2 y2 := by
  unfold minorLen majorLen
  by_cases h : xDominant x1 y1 x2 y2 = true
  · rw [if_pos h, if_pos h]
    exact (xDominant_iff x1 y1 x2 y2).1 h
  · rw [if_neg h, if_neg h]
    have := mt (xDominant_iff x1 y1 x2 y2).2 h
    omega

theorem majorLen_eq_max (x1 y1 x2 y2 : Int) :
    majorLen x1 y1 x2 y2 = max (Int.natAbs (x2 - x1)) (Int.natAbs (y2 - y1)) := by
  unfold majorLen
  by_cases h : xDominant x1 y1 x2 y2 = true
  · rw [if_pos h]
    have := (xDominant_iff x1 y1 x2 y2).1 h
    omega
  · rw [if_neg h]
    have := mt (xDominant_iff x1 y1 x2 y2).2 h
    omega

theorem minorLen_eq_min (x1 y1 x2 y2 : Int) :
    minorLen x1 y1 x2 y2 = min (Int.natAbs (x2 - x1)) (Int.natAbs (y2 - y1)) := by
  unfold minorLen
  by_cases h : xDominant x1 y1 x2 y2 = true
  · rw [if_pos h]
    have := (xDominant_iff x1 y1 x2 y2).1 h
    omega
  · rw [if_neg h]
    have := mt (xDominant_iff x1 y1 x2 y2).2 h
    omega

theorem initialize_line_eq_reached (self : LineRasterizer) (x1 y1 x2 y2 : Int) :
    initialize_line self x1 y1 x2 y2 = reached x1 y1 x2 y2 0 0 true := by
  unfold initialize_line reached minorLen majorLen xDominant stepOf
  by_cases h : (Int.natAbs (x2 - x1) : Int) ≥ (Int.natAbs (y2 - y1) : Int)
  · simp [-Int.natCast_natAbs, h]
  · simp [-Int.natCast_natAbs, h]

theorem stepOf_mul_natAbs (delta : Int) : stepOf delta * (Int.natAbs delta : Int) = delta := by
  unfold stepOf
  split <;> omega

theorem stepOf_cases (delta : Int) :
    (stepOf delta = 1 ∧ 0 ≤ delta) ∨ (stepOf delta = -1 ∧ delta < 0) := by
  unfold stepOf
  split <;> omega

theorem NextFragment_reached_stop (x1 y1 x2 y2 : Int) (m : Int) (v : Bool) :
    NextFragment (reached x1 y1 x2 y2 (majorLen x1 y1 x2 y2) m v)
      = reached x1 y1 x2 y2 (majorLen x1 y1 x2 y2) m false := by
  have hx := stepOf_mul_natAbs (x2 - x1)
  have hy := stepOf_mul_natAbs (y2 - y1)
  unfold NextFragment reached
  cases hdom : xDominant x1 y1 x2 y2
  · have hA : majorLen x1 y1 x2 y2 = Int.natAbs (y2 - y1) := by simp [majorLen, hdom]
    have hstop : y1 + stepOf (y2 - y1) * (Int.natAbs (y2 - y1) : Int) = y2 := by omega
    simp [-Int.natCast_natAbs, y_dominant_innerloop, hA, hstop]
  · have hA : majorLen x1 y1 x2 y2 = Int.natAbs (x2 - x1) := by simp [majorLen, hdom]
    have hstop : x1 + stepOf (x2 - x1) * (Int.natAbs (x2 - x1) : Int) = x2 := by omega
    simp [-Int.natCast_natAbs, x_dominant_innerloop, hA, hstop]

theorem NextFragment_reached_step (x1 y1 x2 y2 : Int) (k : Nat) (m : Int) (v : Bool)
    (hk : k < majorLen x1 y1 x2 y2) :
    NextFragment (reached x1 y1 x2 y2 k m v)
      = reached x1 y1 x2 y2 (k + 1)
          (if 2 * (minorLen x1 y1 x2 y2 : Int) * ((k : Int) + 1)
                - (majorLen x1 y1 x2 y2 : Int) * (2 * m + 1) > 0 then m + 1 else m) v := by
  have hx := stepOf_mul_natAbs (x2 - x1)
  have hy := stepOf_mul_natAbs (y2 - y1)
  unfold NextFragment reached
  cases hdom : xDominant x1 y1 x2 y2
  · have hA : majorLen x1 y1 x2 y2 = Int.natAbs (y2 - y1) := by simp [majorLen, hdom]
    have hB : minorLen x1 y1 x2 y2 = Int.natAbs (x2 - x1) := by simp [minorLen, hdom]
    have hne : ¬ (y1 + stepOf (y2 - y1) * (k : Int) = y2) := by
      rw [hA] at hk
      rcases stepOf_cases (y2 - y1) with ⟨h1, h2⟩ | ⟨h1, h2⟩ <;> rw [h1] <;> omega
    simp only [hA, hB] at *
    simp only [y_dominant_innerloop, hne, if_false, Bool.false_eq_true]
    split
    · simp only [if_true, *]
      congr 1 <;> push_cast <;> ring
    · simp only [if_false, *]
      congr 1 <;> push_cast <;> ring
  · have hA : majorLen x1 y1 x2 y2 = Int.natAbs (x2 - x1) := by simp [majorLen, hdom]
    have hB : minorLen x1 y1 x2 y2 = Int.natAbs (y2 - y1) := by simp [minorLen, hdom]
    have hne : ¬ (x1 + stepOf (x2 - x1) * (k : Int) = x2) := by
      rw [hA] at hk
      rcases stepOf_cases (x2 - x1) with ⟨h1, h2⟩ | ⟨h1, h2⟩ <;> rw [h1] <;> omega
    simp only [hA, hB] at *
    simp only [x_dominant_innerloop, hne, if_false, if_true]
    split
    · simp only [if_true, *]
      congr 1 <;> push_cast <;> ring
    · simp only [if_false, *]
      congr 1 <;> push_cast <;> ring

theorem minorSteps_succ_cases (A B : Int) (k : Nat) :
    minorSteps A B (k + 1) = minorSteps A B k ∨ minorSteps A B (k + 1) = minorSteps A B k + 1 := by
  rw [minorSteps]
  split
  · exact Or.inr rfl
  · exact Or.inl rfl

theorem minorSteps_nonneg (A B : Int) (k : Nat) : 0 ≤ minorSteps A B k := by
  induction k with
  | zero => simp [minorSteps]
  | succ k ih => rcases minorSteps_succ_cases A B k with h | h <;> omega

theorem minorSteps_error (A B : Int) (hB : 0 ≤ B) (hBA : B ≤ A) (k : Nat) :
    -A ≤ 2 * (B * k - A * minorSteps A B k) ∧ 2 * (B * k - A * minorSteps A B k) ≤ A := by
  induction k with
  | zero => simp [minorSteps]; omega
  | succ k ih =>
    obtain ⟨ih1, ih2⟩ := ih
    rw [minorSteps]
    split
    · rename_i hd
      push_cast
      constructor <;> nlinarith
    · rename_i hd
      push_cast
      constructor <;> nlinarith

theorem minorSteps_error_strict (A B : Int) (hB : 0 ≤ B) (hBA : B ≤ A) (hA : 0 < A) (k : Nat) :
    -A < 2 * (B * k - A * minorSteps A B k) := by
  induction k with
  | zero => simp [minorSteps]; omega
  | succ k ih =>
    have ih2 := (minorSteps_error A B hB hBA k).2
    rw [minorSteps]
    split
    · rename_i hd
      push_cast
      nlinarith
    · rename_i hd
      push_cast
      nlinarith

theorem minorSteps_last (A B : Nat) (hBA : B ≤ A) : minorSteps A B A = B := by
  rcases Nat.eq_zero_or_pos A with h0 | hpos
  · subst h0
    have : B = 0 := by omega
    subst this
    simp [minorSteps]
  · have hA : (0 : Int) < A := by exact_mod_cast hpos
    have hB : (0 : Int) ≤ B := by exact_mod_cast Nat.zero_le B
    have hBA' : (B : Int) ≤ A := by exact_mod_cast hBA
    obtain ⟨h1, h2⟩ := minorSteps_error A B hB hBA' A
    have e : 2 * ((B : Int) * A - A * minorSteps A B A) = (A : Int) * (2 * (B - minorSteps A B A)) := by
      ring
    rw [e] at h1 h2
    have u1 : 2 * ((B : Int) - minorSteps A B A) ≤ 1 := by
      have : (A : Int) * (2 * (B - minorSteps A B A)) ≤ A * 1 := by linarith
      exact le_of_mul_le_mul_left this hA
    have u2 : -1 ≤ 2 * ((B : Int) - minorSteps A B A) := by
      have : (A : Int) * (-1) ≤ A * (2 * (B - minorSteps A B A)) := by linarith
      exact le_of_mul_le_mul_left this hA
    omega

theorem iterate_reached (x1 y1 x2 y2 : Int) (v : Bool) (k : Nat)
    (hk : k ≤ majorLen x1 y1 x2 y2) :
    NextFragment^[k] (reached x1 y1 x2 y2 0 0 v)
      = reached x1 y1 x2 y2 k
          (minorSteps (majorLen x1 y1 x2 y2) (minorLen x1 y1 x2 y2) k) v := by
  induction k with
  | zero => simp [minorSteps]
  | succ k ih =>
    rw [Function.iterate_succ_apply', ih (by omega), NextFragment_reached_step _ _ _ _ _ _ _ (by omega)]
    rw [minorSteps]

theorem AllFragments_while_valid (fuel : Nat) (self : LineRasterizer) (points : List vec3)
    (h : self.valid = true) :
    AllFragments_while (fuel + 1) self points
      = AllFragments_while fuel (NextFragment self) (points ++ [fragment self]) := by
  simp [AllFragments_while, MoreFragments, x, y, h, fragment]

theorem AllFragments_while_invalid (fuel : Nat) (self : LineRasterizer) (points : List vec3)
    (h : self.valid = false) :
    AllFragments_while (fuel + 1) self points = some (Except.ok points, self) := by
  simp [AllFragments_while, MoreFragments, h]

theorem AllFragments_while_reached (x1 y1 x2 y2 : Int) (j : Nat) :
    ∀ (k : Nat) (points : List vec3) (extra : Nat), k + j = majorLen x1 y1 x2 y2 →
      AllFragments_while (j + 2 + extra)
          (reached x1 y1 x2 y2 k
            (minorSteps (majorLen x1 y1 x2 y2) (minorLen x1 y1 x2 y2) k) true) points
        = some (Except.ok (points ++ (List.range' k (j + 1)).map (lineFragment x1 y1 x2 y2)),
            reached x1 y1 x2 y2 (majorLen x1 y1 x2 y2)
              (minorSteps (majorLen x1 y1 x2 y2) (minorLen x1 y1 x2 y2)
                (majorLen x1 y1 x2 y2)) false) := by
  induction j with
  | zero =>
    intro k points extra hk
    have hk' : k = majorLen x1 y1 x2 y2 := by omega
    subst hk'
    rw [show 0 + 2 + extra = (extra + 1) + 1 by omega, AllFragments_while_valid _ _ _ rfl,
      NextFragment_reached_stop, AllFragments_while_invalid _ _ _ rfl]
    simp [lineFragment]
  | succ j ih =>
    intro k points extra hk
    rw [show j + 1 + 2 + extra = (j + 2 + extra) + 1 by omega, AllFragments_while_valid _ _ _ rfl,
      NextFragment_reached_step _ _ _ _ _ _ _ (by omega)]
    have := ih (k + 1) (points ++ [lineFragment x1 y1 x2 y2 k]) extra (by omega)
    rw [minorSteps] at this
    rw [List.range'_succ k, List.map_cons]
    rw [List.append_assoc, List.singleton_append] at this
    exact this

/-- Draining an initialised rasterizer: with at least `majorLen + 2` units of fuel the loop
ends, the vector holds the fragments `lineFragment 0 .. lineFragment majorLen`, and the
object is left at the stop pixel with `valid = false`. -/
theorem AllFragments_initialize_line (self : LineRasterizer) (x1 y1 x2 y2 : Int) (extra : Nat) :
    AllFragments (majorLen x1 y1 x2 y2 + 2 + extra) (initialize_line self x1 y1 x2 y2)
      = some (Except.ok ((List.range (majorLen x1 y1 x2 y2 + 1)).map (lineFragment x1 y1 x2 y2)),
          reached x1 y1 x2 y2 (majorLen x1 y1 x2 y2) (minorLen x1 y1 x2 y2) false) := by
  have h := AllFragments_while_reached x1 y1 x2 y2 (majorLen x1 y1 x2 y2) 0 [] extra (by omega)
  rw [minorSteps_last _ _ (minorLen_le_majorLen x1 y1 x2 y2)] at h
  rw [AllFragments, initialize_line_eq_reached, List.range_eq_range']
  simpa [minorSteps] using h

theorem linePoint_zero (x1 y1 x2 y2 : Int) : linePoint x1 y1 x2 y2 0 = ⟨x1, y1, 0⟩ := by
  unfold linePoint current reached
  cases xDominant x1 y1 x2 y2 <;> simp [minorSteps]

/-- The signed distance of `linePoint k` from the ideal line, scaled by the dominant delta,
written with the dominant axis first: it is the error term of `minorSteps`, up to sign. -/
theorem linePoint_cross (x1 y1 x2 y2 : Int) (k : Nat) :
    ∃ sign : Int, (sign = 1 ∨ sign = -1) ∧
      ((linePoint x1 y1 x2 y2 k).y - y1) * (x2 - x1) - ((linePoint x1 y1 x2 y2 k).x - x1) * (y2 - y1)
        = sign * ((minorLen x1 y1 x2 y2 : Int) * k
            - (majorLen x1 y1 x2 y2 : Int)
              * minorSteps (majorLen x1 y1 x2 y2) (minorLen x1 y1 x2 y2) k) := by
  have hx := stepOf_mul_natAbs (x2 - x1)
  have hy := stepOf_mul_natAbs (y2 - y1)
  unfold linePoint
  generalize minorSteps (majorLen x1 y1 x2 y2) (minorLen x1 y1 x2 y2) k = m
  unfold current reached majorLen minorLen
  cases xDominant x1 y1 x2 y2
  · simp only [Bool.false_eq_true, if_false]
    generalize (Int.natAbs (x2 - x1) : Int) = a at *
    generalize (Int.natAbs (y2 - y1) : Int) = b at *
    rcases stepOf_cases (x2 - x1) with ⟨sx, _⟩ | ⟨sx, _⟩ <;>
      rcases stepOf_cases (y2 - y1) with ⟨sy, _⟩ | ⟨sy, _⟩ <;>
      rw [sx] at hx ⊢ <;> rw [sy] at hy ⊢ <;> rw [← hx, ← hy]
    · exact ⟨1, Or.inl rfl, by ring⟩
    · exact ⟨-1, Or.inr rfl, by ring⟩
    · exact ⟨-1, Or.inr rfl, by ring⟩
    · exact ⟨1, Or.inl rfl, by ring⟩
  · simp only [if_true]
    generalize (Int.natAbs (x2 - x1) : Int) = a at *
    generalize (Int.natAbs (y2 - y1) : Int) = b at *
    rcases stepOf_cases (x2 - x1) with ⟨sx, _⟩ | ⟨sx, _⟩ <;>
      rcases stepOf_cases (y2 - y1) with ⟨sy, _⟩ | ⟨sy, _⟩ <;>
      rw [sx] at hx ⊢ <;> rw [sy] at hy ⊢ <;> rw [← hx, ← hy]
    · exact ⟨-1, Or.inr rfl, by ring⟩
    · exact ⟨1, Or.inl rfl, by ring⟩
    · exact ⟨1, Or.inl rfl, by ring⟩
    · exact ⟨-1, Or.inr rfl, by ring⟩

theorem linePoint_cross_le (x1 y1 x2 y2 : Int) (k : Nat) :
    2 * Int.natAbs (((linePoint x1 y1 x2 y2 k).y - y1) * (x2 - x1)
        - ((linePoint x1 y1 x2 y2 k).x - x1) * (y2 - y1)) ≤ majorLen x1 y1 x2 y2 := by
  obtain ⟨sign, hs, heq⟩ := linePoint_cross x1 y1 x2 y2 k
  have hBA : ((minorLen x1 y1 x2 y2 : Nat) : Int) ≤ (majorLen x1 y1 x2 y2 : Nat) := by
    exact_mod_cast minorLen_le_majorLen x1 y1 x2 y2
  obtain ⟨e1, e2⟩ := minorSteps_error (majorLen x1 y1 x2 y2) (minorLen x1 y1 x2 y2)
    (by exact_mod_cast Nat.zero_le _) hBA k
  rw [heq]
  generalize ((minorLen x1 y1 x2 y2 : Int) * k - (majorLen x1 y1 x2 y2 : Int)
    * minorSteps (majorLen x1 y1 x2 y2) (minorLen x1 y1 x2 y2) k) = E at *
  rcases hs with rfl | rfl <;> omega

theorem remaining_reached (x1 y1 x2 y2 : Int) (k : Nat) (m : Int) (v : Bool)
    (hk : k ≤ majorLen x1 y1 x2 y2) :
    remaining (reached x1 y1 x2 y2 k m v)
      = (majorLen x1 y1 x2 y2 - k) + (if v then 1 else 0) := by
  have hx := stepOf_mul_natAbs (x2 - x1)
  have hy := stepOf_mul_natAbs (y2 - y1)
  unfold remaining reached
  unfold majorLen at hk ⊢
  cases hdom : xDominant x1 y1 x2 y2
  · simp only [hdom, Bool.false_eq_true, if_false] at hk ⊢
    rcases stepOf_cases (y2 - y1) with ⟨h1, h2⟩ | ⟨h1, h2⟩ <;> rw [h1] at hy ⊢ <;> omega
  · simp only [hdom, if_true] at hk ⊢
    rcases stepOf_cases (x2 - x1) with ⟨h1, h2⟩ | ⟨h1, h2⟩ <;> rw [h1] at hx ⊢ <;> omega

theorem iterate_reached_exhausted (x1 y1 x2 y2 : Int) (v : Bool) (j : Nat) :
    NextFragment^[majorLen x1 y1 x2 y2 + 1 + j] (reached x1 y1 x2 y2 0 0 v)
      = reached x1 y1 x2 y2 (majorLen x1 y1 x2 y2) (minorLen x1 y1 x2 y2) false := by
  induction j with
  | zero =>
    rw [Nat.add_zero, Function.iterate_succ_apply', iterate_reached _ _ _ _ _ _ (le_refl _),
      NextFragment_reached_stop, minorSteps_last _ _ (minorLen_le_majorLen x1 y1 x2 y2)]
  | succ j ih =>
    rw [← Nat.add_assoc, Function.iterate_succ_apply', ih, NextFragment_reached_stop]

theorem minorSteps_zero_minor (A : Int) (hA : 0 ≤ A) (k : Nat) : minorSteps A 0 k = 0 := by
  induction k with
  | zero => rfl
  | succ k ih =>
    rw [minorSteps, ih, if_neg]
    omega

theorem linePoint_horizontal (x1 y1 x2 : Int) (k : Nat) :
    linePoint x1 y1 x2 y1 k = ⟨x1 + (if x2 ≥ x1 then 1 else -1) * (k : Int), y1, 0⟩ := by
  have hdom : xDominant x1 y1 x2 y1 = true := by
    rw [xDominant_iff]; simp
  have hB : minorLen x1 y1 x2 y1 = 0 := by simp [minorLen, hdom]
  unfold linePoint
  rw [hB, Nat.cast_zero, minorSteps_zero_minor _ (by exact_mod_cast Nat.zero_le _)]
  simp only [current, reached, hdom, if_true, stepOf, mul_zero, add_zero, vec3.mk.injEq, and_true]
  by_cases h : x2 ≥ x1
  · rw [if_pos h, if_pos (by omega)]
  · rw [if_neg h, if_neg (by omega)]

theorem linePoint_vertical (x1 y1 y2 : Int) (k : Nat) (hk : k ≤ Int.natAbs (y2 - y1)) :
    linePoint x1 y1 x1 y2 k = ⟨x1, y1 + (if y2 ≥ y1 then 1 else -1) * (k : Int), 0⟩ := by
  have hB : minorLen x1 y1 x1 y2 = 0 := by
    rw [minorLen_eq_min]; simp
  unfold linePoint
  rw [hB, Nat.cast_zero, minorSteps_zero_minor _ (by exact_mod_cast Nat.zero_le _)]
  cases hdom : xDominant x1 y1 x1 y2
  · simp only [current, reached, hdom, Bool.false_eq_true, if_false, stepOf, mul_zero, add_zero,
      vec3.mk.injEq, and_true, true_and]
    by_cases h : y2 ≥ y1
    · rw [if_pos h, if_pos (by omega)]
    · rw [if_neg h, if_neg (by omega)]
  · have h0 : y2 = y1 := by
      have := (xDominant_iff x1 y1 x1 y2).1 hdom
      simp at this
      omega
    subst h0
    have hk0 : k = 0 := by simpa using hk
    subst hk0
    simp [current, reached, hdom]

theorem iterate_initialize_line (self : LineRasterizer) (x1 y1 x2 y2 : Int) (j : Nat) :
    NextFragment^[j] (initialize_line self x1 y1 x2 y2)
      = reached x1 y1 x2 y2 (min j (majorLen x1 y1 x2 y2))
          (minorSteps (majorLen x1 y1 x2 y2) (minorLen x1 y1 x2 y2)
            (min j (majorLen x1 y1 x2 y2)))
          (decide (j ≤ majorLen x1 y1 x2 y2)) := by
  rw [initialize_line_eq_reached]
  by_cases h : j ≤ majorLen x1 y1 x2 y2
  · rw [iterate_reached _ _ _ _ _ _ h, Nat.min_eq_left h, decide_eq_true h]
  · obtain ⟨i, rfl⟩ : ∃ i, j = majorLen x1 y1 x2 y2 + 1 + i :=
      ⟨j - (majorLen x1 y1 x2 y2 + 1), by omega⟩
    rw [iterate_reached_exhausted, Nat.min_eq_right (by omega), decide_eq_false h,
      minorSteps_last _ _ (minorLen_le_majorLen x1 y1 x2 y2)]

/-- What a `NextFragment` call leaves alone, in any state. -/
theorem NextFragment_frame (self : LineRasterizer) :
    (NextFragment self).x_start = self.x_start ∧
    (NextFragment self).y_start = self.y_start ∧
    (NextFragment self).x_stop = self.x_stop ∧
    (NextFragment self).y_stop = self.y_stop ∧
    (NextFragment self).dx = self.dx ∧
    (NextFragment self).dy = self.dy ∧
    (NextFragment self).x_step = self.x_step ∧
    (NextFragment self).y_step = self.y_step ∧
    (NextFragment self).abs_2dx = self.abs_2dx ∧
    (NextFragment self).abs_2dy = self.abs_2dy ∧
    (NextFragment self).innerloop = self.innerloop := by
  unfold NextFragment
  cases hmode : self.innerloop
  · simp only [x_dominant_innerloop]
    by_cases hstop : self.x_current = self.x_stop
    · simp [hstop, hmode]
    · by_cases hd : self.d > 0 <;> simp [hstop, hd, hmode]
  · simp only [y_dominant_innerloop]
    by_cases hstop : self.y_current = self.y_stop
    · simp [hstop, hmode]
    · by_cases hd : self.d > 0 <;> simp [hstop, hd, hmode]

theorem y_dominant_innerloop_mirror (self : LineRasterizer) :
    y_dominant_innerloop (mirror self) = mirror (x_dominant_innerloop self) := by
  simp only [y_dominant_innerloop, x_dominant_innerloop, mirror]
  by_cases hstop : self.x_current = self.x_stop
  · simp [hstop]
  · by_cases hd : self.d > 0 <;> simp [hstop, hd]

theorem x_dominant_innerloop_mirror (self : LineRasterizer) :
    x_dominant_innerloop (mirror self) = mirror (y_dominant_innerloop self) := by
  simp only [y_dominant_innerloop, x_dominant_innerloop, mirror]
  by_cases hstop : self.y_current = self.y_stop
  · simp [hstop]
  · by_cases hd : self.d > 0 <;> simp [hstop, hd]

theorem NextFragment_mirror (self : LineRasterizer) :
    NextFragment (mirror self) = mirror (NextFragment self) := by
  unfold NextFragment
  cases hmode : self.innerloop
  · have : (mirror self).innerloop = Innerloop.y_dominant_innerloop := by simp [mirror, hmode]
    simp only [this]
    exact y_dominant_innerloop_mirror self
  · have : (mirror self).innerloop = Innerloop.x_dominant_innerloop := by simp [mirror, hmode]
    simp only [this]
    exact x_dominant_innerloop_mirror self

/-- On a diagonal the minor axis steps at every call. -/
theorem minorSteps_diagonal (A : Int) (hA : 0 < A) (k : Nat) : minorSteps A A k = k := by
  induction k with
  | zero => rfl
  | succ k ih =>
    rw [minorSteps, ih, if_pos]
    · push_cast; ring
    · nlinarith

theorem linePoint_transpose (x1 y1 x2 y2 : Int) (k : Nat) (hk : k ≤ majorLen x1 y1 x2 y2) :
    linePoint y1 x1 y2 x2 k
      = ⟨(linePoint x1 y1 x2 y2 k).y, (linePoint x1 y1 x2 y2 k).x, (linePoint x1 y1 x2 y2 k).z⟩ := by
  have hA : majorLen y1 x1 y2 x2 = majorLen x1 y1 x2 y2 := by
    rw [majorLen_eq_max, majorLen_eq_max, max_comm]
  have hB : minorLen y1 x1 y2 x2 = minorLen x1 y1 x2 y2 := by
    rw [minorLen_eq_min, minorLen_eq_min, min_comm]
  unfold linePoint
  rw [hA, hB]
  cases h1 : xDominant x1 y1 x2 y2 <;> cases h2 : xDominant y1 x1 y2 x2
  · have := mt (xDominant_iff x1 y1 x2 y2).2 (by simp [h1])
    have := mt (xDominant_iff y1 x1 y2 x2).2 (by simp [h2])
    omega
  · simp [current, reached, h1, h2]
  · simp [current, reached, h1, h2]
  · have a1 := (xDominant_iff x1 y1 x2 y2).1 h1
    have a2 := (xDominant_iff y1 x1 y2 x2).1 h2
    have hAB : minorLen x1 y1 x2 y2 = majorLen x1 y1 x2 y2 := by
      rw [minorLen_eq_min, majorLen_eq_max]; omega
    rw [hAB]
    rcases Nat.eq_zero_or_pos (majorLen x1 y1 x2 y2) with h0 | hpos
    · have hk0 : k = 0 := by omega
      subst hk0
      simp [current, reached, h1, h2, minorSteps]
    · rw [minorSteps_diagonal _ (by exact_mod_cast hpos)]
      simp [current, reached, h1, h2]

theorem iterate_frame (self : LineRasterizer) (k : Nat) :
    (NextFragment^[k] self).x_start = self.x_start ∧
    (NextFragment^[k] self).y_start = self.y_start ∧
    (NextFragment^[k] self).x_stop = self.x_stop ∧
    (NextFragment^[k] self).y_stop = self.y_stop ∧
    (NextFragment^[k] self).dx = self.dx ∧
    (NextFragment^[k] self).dy = self.dy ∧
    (NextFragment^[k] self).x_step = self.x_step ∧
    (NextFragment^[k] self).y_step = self.y_step ∧
    (NextFragment^[k] self).abs_2dx = self.abs_2dx ∧
    (NextFragment^[k] self).abs_2dy = self.abs_2dy ∧
    (NextFragment^[k] self).innerloop = self.innerloop := by
  induction k with
  | zero => simp
  | succ k ih =>
    rw [Function.iterate_succ_apply']
    obtain ⟨h1, h2, h3, h4, h5, h6, h7, h8, h9, h10, h11⟩ := NextFragment_frame (NextFragment^[k] self)
    obtain ⟨i1, i2, i3, i4, i5, i6, i7, i8, i9, i10, i11⟩ := ih
    exact ⟨h1.trans i1, h2.trans i2, h3.trans i3, h4.trans i4, h5.trans i5, h6.trans i6,
      h7.trans i7, h8.trans i8, h9.trans i9, h10.trans i10, h11.trans i11⟩

/-- The two offsets of a reached state from the start point, as natural numbers. -/
theorem reached_offsets (x1 y1 x2 y2 : Int) (k : Nat) (m : Int) (v : Bool) (hm : 0 ≤ m) :
    (xDominant x1 y1 x2 y2 = true →
      Int.natAbs ((reached x1 y1 x2 y2 k m v).x_current - x1) = k ∧
      (Int.natAbs ((reached x1 y1 x2 y2 k m v).y_current - y1) : Int) = m) ∧
    (xDominant x1 y1 x2 y2 = false →
      Int.natAbs ((reached x1 y1 x2 y2 k m v).y_current - y1) = k ∧
      (Int.natAbs ((reached x1 y1 x2 y2 k m v).x_current - x1) : Int) = m) := by
  constructor
  · intro hdom
    simp only [reached, hdom, if_true]
    rcases stepOf_cases (x2 - x1) with ⟨sx, _⟩ | ⟨sx, _⟩ <;>
      rcases stepOf_cases (y2 - y1) with ⟨sy, _⟩ | ⟨sy, _⟩ <;>
      rw [sx, sy] <;> constructor <;> omega
  · intro hdom
    simp only [reached, hdom, Bool.false_eq_true, if_false]
    rcases stepOf_cases (x2 - x1) with ⟨sx, _⟩ | ⟨sx, _⟩ <;>
      rcases stepOf_cases (y2 - y1) with ⟨sy, _⟩ | ⟨sy, _⟩ <;>
      rw [sx, sy] <;> constructor <;> omega

theorem minorSteps_mono (A B : Int) (k j : Nat) (h : k ≤ j) :
    minorSteps A B k ≤ minorSteps A B j := by
  induction j with
  | zero =>
    have : k = 0 := by omega
    subst this
    exact le_refl _
  | succ j ih =>
    rcases Nat.eq_or_lt_of_le h with heq | hlt
    · subst heq
      exact le_refl _
    · have := ih (by omega)
      rcases minorSteps_succ_cases A B j with e | e <;> omega

theorem minorSteps_le_minor (A B : Nat) (hBA : B ≤ A) (k : Nat) (hk : k ≤ A) :
    minorSteps A B k ≤ B := by
  have := minorSteps_mono A B k A hk
  rw [minorSteps_last A B hBA] at this
  exact this

theorem linePoint_in_box (x1 y1 x2 y2 : Int) (k : Nat) (hk : k ≤ majorLen x1 y1 x2 y2) :
    min x1 x2 ≤ (linePoint x1 y1 x2 y2 k).x ∧ (linePoint x1 y1 x2 y2 k).x ≤ max x1 x2 ∧
    min y1 y2 ≤ (linePoint x1 y1 x2 y2 k).y ∧ (linePoint x1 y1 x2 y2 k).y ≤ max y1 y2 := by
  have hx := stepOf_mul_natAbs (x2 - x1)
  have hy := stepOf_mul_natAbs (y2 - y1)
  have hm := minorSteps_nonneg (majorLen x1 y1 x2 y2) (minorLen x1 y1 x2 y2) k
  have hle := minorSteps_le_minor _ _ (minorLen_le_majorLen x1 y1 x2 y2) k hk
  unfold linePoint
  generalize minorSteps (majorLen x1 y1 x2 y2) (minorLen x1 y1 x2 y2) k = m at *
  unfold current reached
  unfold majorLen minorLen at *
  cases hdom : xDominant x1 y1 x2 y2
  · simp only [hdom, Bool.false_eq_true, if_false] at hk hle ⊢
    rcases stepOf_cases (x2 - x1) with ⟨sx, _⟩ | ⟨sx, _⟩ <;>
      rcases stepOf_cases (y2 - y1) with ⟨sy, _⟩ | ⟨sy, _⟩ <;>
      rw [sx] at hx ⊢ <;> rw [sy] at hy ⊢ <;> omega
  · simp only [hdom, if_true] at hk hle ⊢
    rcases stepOf_cases (x2 - x1) with ⟨sx, _⟩ | ⟨sx, _⟩ <;>
      rcases stepOf_cases (y2 - y1) with ⟨sy, _⟩ | ⟨sy, _⟩ <;>
      rw [sx] at hx ⊢ <;> rw [sy] at hy ⊢ <;> omega

/-- The minor-axis steps taken before call `k + 1` are the ideal minor offset at dominant
offset `k`, rounded to the nearest integer with ties rounded down. -/
theorem minorSteps_eq_ceil (A B : Nat) (hBA : B ≤ A) (hpos : 0 < A) (k : Nat) :
    minorSteps A B k
      = ⌈(((2 * (B : Int) * (k : Int) - (A : Int) : Int) : ℚ)) / (((2 * (A : Int) : Int) : ℚ))⌉ := by
  have hA : (0 : Int) < A := by exact_mod_cast hpos
  have hB : (0 : Int) ≤ B := by exact_mod_cast Nat.zero_le B
  have hBA' : (B : Int) ≤ A := by exact_mod_cast hBA
  have f1 := minorSteps_error_strict A B hB hBA' hA k
  have f2 := (minorSteps_error A B hB hBA' k).2
  generalize minorSteps A B k = m at *
  have hden : (0 : ℚ) < ((2 * (A : Int) : Int) : ℚ) := by
    have : (0 : Int) < 2 * (A : Int) := by omega
    exact_mod_cast this
  symm
  rw [Int.ceil_eq_iff]
  constructor
  · rw [lt_div_iff₀ hden]
    have : (m - 1) * (2 * (A : Int)) < 2 * (B : Int) * (k : Int) - (A : Int) := by linarith
    exact_mod_cast this
  · rw [div_le_iff₀ hden]
    have : 2 * (B : Int) * (k : Int) - (A : Int) ≤ m * (2 * (A : Int)) := by linarith
    exact_mod_cast this

/-! ### The conversion to `float` -/

theorem float_ulp_small (n : Nat) (h : n ≤ 16777216) : float_ulp 104 n 1 = 1 := by
  rw [show (104 : Nat) = 103 + 1 from rfl, float_ulp, if_pos (by omega)]

/-- The conversion is exact up to magnitude `2 ^ 24`. -/
theorem float_exact (v : Int) (h : Int.natAbs v ≤ 16777216) : float v = v := by
  unfold float
  simp only [float_ulp_small _ h, Nat.div_one, Nat.mod_one, Nat.mul_zero, Nat.zero_lt_one,
    if_true, Nat.mul_one]
  split <;> omega

theorem lineFragment_eq (x1 y1 x2 y2 : Int) (k : Nat) :
    lineFragment x1 y1 x2 y2 k
      = ⟨float (linePoint x1 y1 x2 y2 k).x, float (linePoint x1 y1 x2 y2 k).y, 0⟩ := rfl

/-- Inside the square of the exactly convertible coordinates every fragment of a line is
the point itself. -/
theorem lineFragment_exact (x1 y1 x2 y2 : Int)
    (hx1 : Int.natAbs x1 ≤ 16777216) (hy1 : Int.natAbs y1 ≤ 16777216)
    (hx2 : Int.natAbs x2 ≤ 16777216) (hy2 : Int.natAbs y2 ≤ 16777216)
    (k : Nat) (hk : k ≤ majorLen x1 y1 x2 y2) :
    lineFragment x1 y1 x2 y2 k = linePoint x1 y1 x2 y2 k := by
  obtain ⟨h1, h2, h3, h4⟩ := linePoint_in_box x1 y1 x2 y2 k hk
  have hz : (linePoint x1 y1 x2 y2 k).z = 0 := rfl
  rw [lineFragment_eq, float_exact _ (by omega), float_exact _ (by omega)]
  cases hp : linePoint x1 y1 x2 y2 k
  rw [hp] at hz
  simp only at hz
  rw [hz]

/-- Draining a line whose end points convert exactly: the vector holds the points
`linePoint 0 .. linePoint majorLen` themselves. -/
theorem AllFragments_initialize_line_exact (self : LineRasterizer) (x1 y1 x2 y2 : Int)
    (hx1 : Int.natAbs x1 ≤ 16777216) (hy1 : Int.natAbs y1 ≤ 16777216)
    (hx2 : Int.natAbs x2 ≤ 16777216) (hy2 : Int.natAbs y2 ≤ 16777216) (extra : Nat) :
    AllFragments (majorLen x1 y1 x2 y2 + 2 + extra) (initialize_line self x1 y1 x2 y2)
      = some (Except.ok ((List.range (majorLen x1 y1 x2 y2 + 1)).map (linePoint x1 y1 x2 y2)),
          reached x1 y1 x2 y2 (majorLen x1 y1 x2 y2) (minorLen x1 y1 x2 y2) false) := by
  rw [AllFragments_initialize_line]
  congr 3
  exact List.map_congr_left fun k hk =>
    lineFragment_exact x1 y1 x2 y2 hx1 hy1 hx2 hy2 k (by rw [List.mem_range] at hk; omega)

theorem lineFragment_transpose (x1 y1 x2 y2 : Int) (k : Nat) (hk : k ≤ majorLen x1 y1 x2 y2) :
    lineFragment y1 x1 y2 x2 k
      = ⟨(lineFragment x1 y1 x2 y2 k).y, (lineFragment x1 y1 x2 y2 k).x,
          (lineFragment x1 y1 x2 y2 k).z⟩ := by
  rw [lineFragment_eq, lineFragment_eq, linePoint_transpose x1 y1 x2 y2 k hk]

/-! ### The 32-bit arithmetic -/

/-- The decision variable of every state reached from an initialised line lies between
`2 * B - 2 * A` and `2 * B`, with `A` the dominant and `B` the minor absolute delta. -/
theorem iterate_d_bounds (self : LineRasterizer) (x1 y1 x2 y2 : Int) (j : Nat) :
    2 * (minorLen x1 y1 x2 y2 : Int) - 2 * (majorLen x1 y1 x2 y2 : Int)
        ≤ (NextFragment^[j] (initialize_line self x1 y1 x2 y2)).d ∧
    (NextFragment^[j] (initialize_line self x1 y1 x2 y2)).d
        ≤ 2 * (minorLen x1 y1 x2 y2 : Int) := by
  rw [iterate_initialize_line]
  have hBA : ((minorLen x1 y1 x2 y2 : Nat) : Int) ≤ (majorLen x1 y1 x2 y2 : Nat) := by
    exact_mod_cast minorLen_le_majorLen x1 y1 x2 y2
  obtain ⟨e1, e2⟩ := minorSteps_error (majorLen x1 y1 x2 y2) (minorLen x1 y1 x2 y2)
    (by exact_mod_cast Nat.zero_le _) hBA (min j (majorLen x1 y1 x2 y2))
  simp only [reached]
  constructor <;> linarith

theorem int32_exact (v : Int) (h1 : -2147483648 ≤ v) (h2 : v ≤ 2147483647) : int32 v = v := by
  unfold int32
  omega

/-- When both deltas are below `2 ^ 30` in magnitude no operation of `initialize_line`
overflows: the 32-bit computation stores the exact values. -/
theorem initialize_line_int32_exact (self : LineRasterizer) (x1 y1 x2 y2 : Int)
    (hdx : Int.natAbs (x2 - x1) ≤ 1073741823) (hdy : Int.natAbs (y2 - y1) ≤ 1073741823) :
    initialize_line_int32 self x1 y1 x2 y2 = initialize_line self x1 y1 x2 y2 := by
  have e1 : int32 (x2 - x1) = x2 - x1 := int32_exact _ (by omega) (by omega)
  have e2 : int32 (y2 - y1) = y2 - y1 := int32_exact _ (by omega) (by omega)
  have e3 : int32 (Int.natAbs (x2 - x1) : Int) = (Int.natAbs (x2 - x1) : Int) :=
    int32_exact _ (by omega) (by omega)
  have e4 : int32 (Int.natAbs (y2 - y1) : Int) = (Int.natAbs (y2 - y1) : Int) :=
    int32_exact _ (by omega) (by omega)
  have e5 : int32 (2 * (Int.natAbs (x2 - x1) : Int)) = 2 * (Int.natAbs (x2 - x1) : Int) :=
    int32_exact _ (by omega) (by omega)
  have e6 : int32 (2 * (Int.natAbs (y2 - y1) : Int)) = 2 * (Int.natAbs (y2 - y1) : Int) :=
    int32_exact _ (by omega) (by omega)
  have e7 : int32 (2 * (Int.natAbs (y2 - y1) : Int) - (Int.natAbs (x2 - x1) : Int))
      = 2 * (Int.natAbs (y2 - y1) : Int) - (Int.natAbs (x2 - x1) : Int) :=
    int32_exact _ (by omega) (by omega)
  have e8 : int32 (2 * (Int.natAbs (x2 - x1) : Int) - (Int.natAbs (y2 - y1) : Int))
      = 2 * (Int.natAbs (x2 - x1) : Int) - (Int.natAbs (y2 - y1) : Int) :=
    int32_exact _ (by omega) (by omega)
  simp only [initialize_line_int32, initialize_line, e1, e2, e3, e4, e5, e6, e7, e8]

end LineRasterizer

open LineRasterizer

/-! ## The claims -/

/-- C2, as stated, fails where the conversion to `float` rounds: on the line
`(16777216, 0) -> (16777219, 0)` the x-coordinates of the fragments are `16777216`,
`16777216`, `16777218`, `16777220`, so consecutive fragments differ by `0`, `2` and `2` on
the dominant axis, not by the step `+1`. -/
theorem C2_consecutive_fragments_counterexample :
    (AllFragments 6 (initialize_line zeroed 16777216 0 16777219 0)).map Prod.fst
      = some (Except.ok [⟨16777216, 0, 0⟩, ⟨16777216, 0, 0⟩, ⟨16777218, 0, 0⟩,
          ⟨16777220, 0, 0⟩]) ∧
    Int.natAbs (16777219 - 16777216) ≥ Int.natAbs (0 - 0) ∧
    ¬ ([⟨16777216, 0, 0⟩, ⟨16777216, 0, 0⟩, ⟨16777218, 0, 0⟩, ⟨16777220, 0, 0⟩] : List vec3).Chain'
        (fun p q =>
          q.x = p.x + (if (16777219 : Int) - 16777216 ≥ 0 then 1 else -1) ∧
          (q.y = p.y ∨ q.y = p.y + (if (0 : Int) - 0 ≥ 0 then 1 else -1))) := by
  refine ⟨by rfl, by decide, ?_⟩
  intro h
  have h0 := List.Chain'.rel_head h
  simp at h0

/-- C2, amended: for end points whose four coordinates are at most `2 ^ 24 = 16777216` in
magnitude, consecutive fragments differ by exactly the step direction on the dominant axis
and by `0` or the step direction on the minor axis. -/
theorem C2_consecutive_fragments (self : LineRasterizer) (x1 y1 x2 y2 : Int)
    (hx1 : Int.natAbs x1 ≤ 16777216) (hy1 : Int.natAbs y1 ≤ 16777216)
    (hx2 : Int.natAbs x2 ≤ 16777216) (hy2 : Int.natAbs y2 ≤ 16777216) :
    ∃ (fuel : Nat) (points : List vec3) (after : LineRasterizer),
      (∀ extra : Nat, AllFragments (fuel + extra) (initialize_line self x1 y1 x2 y2)
        = some (Except.ok points, after)) ∧
      (if Int.natAbs (x2 - x1) ≥ Int.natAbs (y2 - y1) then
        points.Chain' (fun p q =>
          q.x = p.x + (if x2 - x1 ≥ 0 then 1 else -1) ∧
          (q.y = p.y ∨ q.y = p.y + (if y2 - y1 ≥ 0 then 1 else -1)))
      else
        points.Chain' (fun p q =>
          q.y = p.y + (if y2 - y1 ≥ 0 then 1 else -1) ∧
          (q.x = p.x ∨ q.x = p.x + (if x2 - x1 ≥ 0 then 1 else -1)))) := by
  refine ⟨_, _, _, AllFragments_initialize_line_exact self x1 y1 x2 y2 hx1 hy1 hx2 hy2, ?_⟩
  have hstep := minorSteps_succ_cases (majorLen x1 y1 x2 y2) (minorLen x1 y1 x2 y2)
  split
  · rename_i hdom
    have hd : xDominant x1 y1 x2 y2 = true := (xDominant_iff x1 y1 x2 y2).2 hdom
    rw [List.chain'_map, List.chain'_range_succ]
    intro k _
    simp only [linePoint, current, reached, hd, if_true]
    constructor
    · change _ = _ + stepOf (x2 - x1)
      push_cast
      ring
    · change _ ∨ _ = _ + stepOf (y2 - y1)
      rcases hstep k with h | h
      · left; rw [h]
      · right; rw [h]; ring
  · rename_i hdom
    have hd : xDominant x1 y1 x2 y2 = false := by
      rw [← Bool.not_eq_true, xDominant_iff]; exact hdom
    rw [List.chain'_map, List.chain'_range_succ]
    intro k _
    simp only [linePoint, current, reached, hd, if_false, Bool.false_eq_true]
    constructor
    · change _ = _ + stepOf (y2 - y1)
      push_cast
      ring
    · change _ ∨ _ = _ + stepOf (x2 - x1)
      rcases hstep k with h | h
      · left; rw [h]
      · right; rw [h]; ring

/-- C2, witness of the amended statement, on the line `(0,0) -> (5,2)`. -/
theorem C2_consecutive_fragments_witness :
    ∃ (fuel : Nat) (points : List vec3) (after : LineRasterizer),
      (∀ extra : Nat, AllFragments (fuel + extra) (initialize_line zeroed 0 0 5 2)
        = some (Except.ok points, after)) ∧
      (if Int.natAbs ((5 : Int) - 0) ≥ Int.natAbs ((2 : Int) - 0) then
        points.Chain' (fun p q =>
          q.x = p.x + (if (5 : Int) - 0 ≥ 0 then 1 else -1) ∧
          (q.y = p.y ∨ q.y = p.y + (if (2 : Int) - 0 ≥ 0 then 1 else -1)))
      else
        points.Chain' (fun p q =>
          q.y = p.y + (if (2 : Int) - 0 ≥ 0 then 1 else -1) ∧
          (q.x = p.x ∨ q.x = p.x + (if (5 : Int) - 0 ≥ 0 then 1 else -1)))) :=
  C2_consecutive_fragments zeroed 0 0 5 2 (by decide) (by decide) (by decide) (by decide)

/-- C3, as stated, fails where the conversion to `float` rounds: on the horizontal line
`(0, 16777217) -> (1, 16777217)` both fragments have `y = 16777216`, a whole pixel away
from the line, so the doubled cross product is `2`, more than `|x2 - x1| = 1`. -/
theorem C3_half_pixel_deviation_counterexample :
    (AllFragments 4 (initialize_line zeroed 0 16777217 1 16777217)).map Prod.fst
      = some (Except.ok [⟨0, 16777216, 0⟩, ⟨1, 16777216, 0⟩]) ∧
    Int.natAbs ((1 : Int) - 0) ≥ Int.natAbs ((16777217 : Int) - 16777217) ∧
    ¬ 2 * Int.natAbs (((16777216 : Int) - 16777217) * (1 - 0) - ((0 : Int) - 0) * (16777217 - 16777217))
        ≤ Int.natAbs ((1 : Int) - 0) := by
  refine ⟨by rfl, by decide, by decide⟩

/-- C3, amended: for end points whose four coordinates are at most `2 ^ 24 = 16777216` in
magnitude, every fragment is within half a pixel of the ideal line on the minor axis, in
exact integer arithmetic (the cross product with the line direction, doubled, is at most
the dominant delta in absolute value). -/
theorem C3_half_pixel_deviation (self : LineRasterizer) (x1 y1 x2 y2 : Int)
    (hx1 : Int.natAbs x1 ≤ 16777216) (hy1 : Int.natAbs y1 ≤ 16777216)
    (hx2 : Int.natAbs x2 ≤ 16777216) (hy2 : Int.natAbs y2 ≤ 16777216) :
    ∃ (fuel : Nat) (points : List vec3) (after : LineRasterizer),
      (∀ extra : Nat, AllFragments (fuel + extra) (initialize_line self x1 y1 x2 y2)
        = some (Except.ok points, after)) ∧
      ∀ p ∈ points,
        if Int.natAbs (x2 - x1) ≥ Int.natAbs (y2 - y1) then
          2 * Int.natAbs ((p.y - y1) * (x2 - x1) - (p.x - x1) * (y2 - y1)) ≤ Int.natAbs (x2 - x1)
        else
          2 * Int.natAbs ((p.x - x1) * (y2 - y1) - (p.y - y1) * (x2 - x1)) ≤ Int.natAbs (y2 - y1) := by
  refine ⟨_, _, _, AllFragments_initialize_line_exact self x1 y1 x2 y2 hx1 hy1 hx2 hy2, ?_⟩
  intro p hp
  obtain ⟨k, _, rfl⟩ := List.mem_map.1 hp
  have h := linePoint_cross_le x1 y1 x2 y2 k
  rw [majorLen_eq_max] at h
  split
  · omega
  · rw [← Int.natAbs_neg, neg_sub]
    omega

/-- C3, witness of the amended statement, on the line `(0,0) -> (5,2)`. -/
theorem C3_half_pixel_deviation_witness :
    ∃ (fuel : Nat) (points : List vec3) (after : LineRasterizer),
      (∀ extra : Nat, AllFragments (fuel + extra) (initialize_line zeroed 0 0 5 2)
        = some (Except.ok points, after)) ∧
      ∀ p ∈ points,
        if Int.natAbs ((5 : Int) - 0) ≥ Int.natAbs ((2 : Int) - 0) then
          2 * Int.natAbs ((p.y - 0) * (5 - 0) - (p.x - 0) * (2 - 0)) ≤ Int.natAbs ((5 : Int) - 0)
        else
          2 * Int.natAbs ((p.x - 0) * (2 - 0) - (p.y - 0) * (5 - 0)) ≤ Int.natAbs ((2 : Int) - 0) :=
  C3_half_pixel_deviation zeroed 0 0 5 2 (by decide) (by decide) (by decide) (by decide)

/-- C5, as stated, fails where the conversion to `float` rounds: the degenerate line on
the point `(16777217, -16777219)` yields the one fragment `(16777216, -16777220, 0)`. -/
theorem C5_degenerate_line_counterexample :
    (AllFragments 2 (initialize_line zeroed 16777217 (-16777219) 16777217 (-16777219))).map
        Prod.fst
      = some (Except.ok [⟨16777216, -16777220, 0⟩]) ∧
    ([⟨16777216, -16777220, 0⟩] : List vec3) ≠ [⟨16777217, -16777219, 0⟩] := by
  refine ⟨by rfl, by decide⟩

/-- C5, amended: the degenerate line `(x1, y1) -> (x1, y1)` yields exactly the one-element
vector `[(float(x1), float(y1), 0)]`, which is `[(x1, y1, 0)]` when `x1` and `y1` are at
most `2 ^ 24 = 16777216` in magnitude. -/
theorem C5_degenerate_line (self : LineRasterizer) (x1 y1 : Int) :
    ∃ (fuel : Nat) (after : LineRasterizer),
      (∀ extra : Nat, AllFragments (fuel + extra) (initialize_line self x1 y1 x1 y1)
        = some (Except.ok [⟨float x1, float y1, 0⟩], after)) ∧
      (Int.natAbs x1 ≤ 16777216 → Int.natAbs y1 ≤ 16777216 →
        ∀ extra : Nat, AllFragments (fuel + extra) (initialize_line self x1 y1 x1 y1)
          = some (Except.ok [⟨x1, y1, 0⟩], after)) := by
  have h := AllFragments_initialize_line self x1 y1 x1 y1
  have h0 : majorLen x1 y1 x1 y1 = 0 := by simp [majorLen]
  rw [h0] at h
  have hlist : (List.range (0 + 1)).map (lineFragment x1 y1 x1 y1)
      = [⟨float x1, float y1, 0⟩] := by
    simp [List.range_succ, lineFragment_eq, linePoint_zero]
  rw [hlist] at h
  refine ⟨0 + 2, reached x1 y1 x1 y1 0 (minorLen x1 y1 x1 y1) false, h, ?_⟩
  intro hx hy extra
  rw [h extra, float_exact x1 hx, float_exact y1 hy]

/-- C6, as stated, fails where the conversion to `float` rounds: in the valid state on the
point `(16777217, -16777219)` the accessor `Fragment()` returns `(16777216, -16777220, 0)`,
not `(x_current, y_current, 0)`. -/
theorem C6_accessors_counterexample :
    MoreFragments (initialize_line zeroed 16777217 (-16777219) 16777217 (-16777219)) = true ∧
    (initialize_line zeroed 16777217 (-16777219) 16777217 (-16777219)).x_current = 16777217 ∧
    (initialize_line zeroed 16777217 (-16777219) 16777217 (-16777219)).y_current = -16777219 ∧
    Fragment (initialize_line zeroed 16777217 (-16777219) 16777217 (-16777219))
      = Except.ok ⟨16777216, -16777220, 0⟩ ∧
    (⟨16777216, -16777220, 0⟩ : vec3) ≠ ⟨16777217, -16777219, 0⟩ := by
  refine ⟨by rfl, by rfl, by rfl, by rfl, by decide⟩

/-- C6, amended: each of the accessors `x()`, `y()` and `Fragment()` throws the
invalid-state `runtime_error` exactly when `MoreFragments()` is false, and otherwise they
return `x_current`, `y_current` and `(float(x_current), float(y_current), 0)`, the last
being `(x_current, y_current, 0)` when both coordinates are at most `2 ^ 24 = 16777216` in
magnitude.  The accessors are `const`: they are functions of the state and produce no new
state. -/
theorem C6_accessors (self : LineRasterizer) :
    ((∃ e, x self = Except.error e) ↔ MoreFragments self = false) ∧
    ((∃ e, y self = Except.error e) ↔ MoreFragments self = false) ∧
    ((∃ e, Fragment self = Except.error e) ↔ MoreFragments self = false) ∧
    (MoreFragments self = false →
      x self = Except.error ⟨"LineRasterizer::x(): Invalid State"⟩ ∧
      y self = Except.error ⟨"LineRasterizer::y(): Invalid State"⟩ ∧
      ∃ e, Fragment self = Except.error e ∧
        (e.what = "LineRasterizer::x(): Invalid State" ∨
          e.what = "LineRasterizer::y(): Invalid State")) ∧
    (MoreFragments self = true →
      x self = Except.ok self.x_current ∧
      y self = Except.ok self.y_current ∧
      Fragment self = Except.ok ⟨float self.x_current, float self.y_current, 0⟩ ∧
      (Int.natAbs self.x_current ≤ 16777216 → Int.natAbs self.y_current ≤ 16777216 →
        Fragment self = Except.ok ⟨self.x_current, self.y_current, 0⟩)) := by
  cases h : self.valid
  · simp [x, y, Fragment, MoreFragments, h]
  · simp only [x, y, Fragment, MoreFragments, h]
    refine ⟨by simp, by simp, by simp, by simp, fun _ => ⟨rfl, rfl, rfl, ?_⟩⟩
    intro hx hy
    simp [float_exact _ hx, float_exact _ hy]

/-- C7, as stated, fails where 32-bit `int` arithmetic overflows: for `x2 - x1 = 2 ^ 30`
the doubled delta `2 ^ 31` is no `int` and the member `abs_2dx` holds `-2147483648`; for
`x2 - x1 = -2 ^ 31` the absolute value overflows and the y-dominant inner loop is selected
although `|x2 - x1| >= |y2 - y1|`. -/
theorem C7_initialize_line_counterexample :
    (initialize_line_int32 zeroed 0 0 1073741824 0).abs_2dx = -2147483648 ∧
    2 * (Int.natAbs ((1073741824 : Int) - 0) : Int) = 2147483648 ∧
    (initialize_line_int32 zeroed 0 0 (-2147483648) 0).innerloop
      = Innerloop.y_dominant_innerloop ∧
    Int.natAbs ((-2147483648 : Int) - 0) ≥ Int.natAbs ((0 : Int) - 0) := by
  refine ⟨by rfl, by rfl, by rfl, by decide⟩

/-- C7, amended: for end points with `|x2 - x1| < 2 ^ 30` and `|y2 - y1| < 2 ^ 30`, and
whatever the prior state, `initialize_line` computes without overflow, stores the end
points, puts the current position on the start point, derives the step directions (a zero
delta gives `+1`), the doubled absolute deltas, the inner loop and the initial decision
value, and sets `valid`.  `Init` and the constructor are this function. -/
theorem C7_initialize_line (self : LineRasterizer) (x1 y1 x2 y2 : Int)
    (hdx : Int.natAbs (x2 - x1) ≤ 1073741823) (hdy : Int.natAbs (y2 - y1) ≤ 1073741823) :
    initialize_line_int32 self x1 y1 x2 y2 = initialize_line self x1 y1 x2 y2 ∧
    Init self x1 y1 x2 y2 = initialize_line self x1 y1 x2 y2 ∧
    new self x1 y1 x2 y2 = initialize_line self x1 y1 x2 y2 ∧
    (initialize_line_int32 self x1 y1 x2 y2).valid = true ∧
    (initialize_line_int32 self x1 y1 x2 y2).x_current = x1 ∧
    (initialize_line_int32 self x1 y1 x2 y2).y_current = y1 ∧
    (initialize_line_int32 self x1 y1 x2 y2).x_start = x1 ∧
    (initialize_line_int32 self x1 y1 x2 y2).y_start = y1 ∧
    (initialize_line_int32 self x1 y1 x2 y2).x_stop = x2 ∧
    (initialize_line_int32 self x1 y1 x2 y2).y_stop = y2 ∧
    (initialize_line_int32 self x1 y1 x2 y2).x_step = (if x2 - x1 ≥ 0 then 1 else -1) ∧
    (initialize_line_int32 self x1 y1 x2 y2).y_step = (if y2 - y1 ≥ 0 then 1 else -1) ∧
    (initialize_line_int32 self x1 y1 x2 y2).abs_2dx = 2 * (Int.natAbs (x2 - x1) : Int) ∧
    (initialize_line_int32 self x1 y1 x2 y2).abs_2dy = 2 * (Int.natAbs (y2 - y1) : Int) ∧
    (if Int.natAbs (x2 - x1) ≥ Int.natAbs (y2 - y1) then
      (initialize_line_int32 self x1 y1 x2 y2).innerloop = Innerloop.x_dominant_innerloop ∧
      (initialize_line_int32 self x1 y1 x2 y2).d
        = 2 * (Int.natAbs (y2 - y1) : Int) - (Int.natAbs (x2 - x1) : Int)
    else
      (initialize_line_int32 self x1 y1 x2 y2).innerloop = Innerloop.y_dominant_innerloop ∧
      (initialize_line_int32 self x1 y1 x2 y2).d
        = 2 * (Int.natAbs (x2 - x1) : Int) - (Int.natAbs (y2 - y1) : Int)) := by
  rw [initialize_line_int32_exact self x1 y1 x2 y2 hdx hdy]
  refine ⟨rfl, rfl, rfl, ?_⟩
  by_cases h : Int.natAbs (x2 - x1) ≥ Int.natAbs (y2 - y1)
  · have h' : (Int.natAbs (x2 - x1) : Int) ≥ (Int.natAbs (y2 - y1) : Int) := by omega
    simp [initialize_line, -Int.natCast_natAbs, h, h']
  · have h' : ¬ (Int.natAbs (x2 - x1) : Int) ≥ (Int.natAbs (y2 - y1) : Int) := by omega
    simp [initialize_line, -Int.natCast_natAbs, h, h']

/-- C7, witness of the amended statement: the line `(0,0) -> (5,2)` is in range; its
32-bit initialisation is the exact one and selects the x-dominant inner loop. -/
theorem C7_initialize_line_witness :
    initialize_line_int32 zeroed 0 0 5 2 = initialize_line zeroed 0 0 5 2 ∧
    (initialize_line_int32 zeroed 0 0 5 2).abs_2dx = 2 * (Int.natAbs ((5 : Int) - 0) : Int) :=
  ⟨(C7_initialize_line zeroed 0 0 5 2 (by decide) (by decide)).1,
    (C7_initialize_line zeroed 0 0 5 2 (by decide) (by decide)).2.2.2.2.2.2.2.2.2.2.2.2.1⟩

/-- C8, as stated, fails where the conversion to `float` rounds: after
`Init(16777217, -16777219, 16777217, -16777219)` the current fragment is
`(16777216, -16777220, 0)`, not `(x1, y1, 0)`. -/
theorem C8_reinitialisation_counterexample :
    Fragment (Init zeroed 16777217 (-16777219) 16777217 (-16777219))
      = Except.ok ⟨16777216, -16777220, 0⟩ ∧
    (⟨16777216, -16777220, 0⟩ : vec3) ≠ ⟨16777217, -16777219, 0⟩ := by
  refine ⟨by rfl, by decide⟩

/-- C8, amended: `Init` applied to any state gives exactly the state of a freshly
constructed rasterizer of the same line: `MoreFragments()` is true, the current fragment is
`(float(x1), float(y1), 0)`, which is `(x1, y1, 0)` when `x1` and `y1` are at most
`2 ^ 24 = 16777216` in magnitude, and `AllFragments` behaves the same, whatever the state
before. -/
theorem C8_reinitialisation (self uninit : LineRasterizer) (x1 y1 x2 y2 : Int) :
    Init self x1 y1 x2 y2 = new uninit x1 y1 x2 y2 ∧
    MoreFragments (Init self x1 y1 x2 y2) = true ∧
    Fragment (Init self x1 y1 x2 y2) = Except.ok ⟨float x1, float y1, 0⟩ ∧
    (Int.natAbs x1 ≤ 16777216 → Int.natAbs y1 ≤ 16777216 →
      Fragment (Init self x1 y1 x2 y2) = Except.ok ⟨x1, y1, 0⟩) ∧
    (∀ fuel : Nat, AllFragments fuel (Init self x1 y1 x2 y2)
      = AllFragments fuel (new uninit x1 y1 x2 y2)) ∧
    ∃ (fuel : Nat) (points : List vec3) (after : LineRasterizer),
      ∀ extra : Nat,
        AllFragments (fuel + extra) (Init self x1 y1 x2 y2) = some (Except.ok points, after) ∧
        AllFragments (fuel + extra) (new uninit x1 y1 x2 y2) = some (Except.ok points, after) := by
  have e : Init self x1 y1 x2 y2 = new uninit x1 y1 x2 y2 := by
    simp only [Init, new, initialize_line_eq_reached]
  have hfrag : Fragment (Init self x1 y1 x2 y2) = Except.ok ⟨float x1, float y1, 0⟩ := by
    have := linePoint_zero x1 y1 x2 y2
    simp only [linePoint, current, minorSteps, vec3.mk.injEq] at this
    simp [Init, initialize_line_eq_reached, Fragment, x, y, this]
    simp [reached]
  refine ⟨e, ?_, hfrag, ?_, fun fuel => by rw [e], majorLen x1 y1 x2 y2 + 2,
    (List.range (majorLen x1 y1 x2 y2 + 1)).map (lineFragment x1 y1 x2 y2),
    reached x1 y1 x2 y2 (majorLen x1 y1 x2 y2) (minorLen x1 y1 x2 y2) false,
    fun extra => ⟨?_, ?_⟩⟩
  · simp [Init, initialize_line_eq_reached, MoreFragments, reached]
  · intro hx hy
    rw [hfrag, float_exact x1 hx, float_exact y1 hy]
  · exact AllFragments_initialize_line self x1 y1 x2 y2 extra
  · exact AllFragments_initialize_line uninit x1 y1 x2 y2 extra

/-- C9: the drain loop of `AllFragments` started from an initialised state terminates, and
the distance from the dominant-axis current coordinate to its stop coordinate, plus one
while `valid` is true, strictly decreases with every `NextFragment` call made while
`MoreFragments()` is true. -/
theorem C9_drain_terminates (self : LineRasterizer) (x1 y1 x2 y2 : Int) :
    (∃ (fuel : Nat) (points : List vec3) (after : LineRasterizer),
      ∀ extra : Nat, AllFragments (fuel + extra) (initialize_line self x1 y1 x2 y2)
        = some (Except.ok points, after)) ∧
    ∀ k : Nat, MoreFragments (NextFragment^[k] (initialize_line self x1 y1 x2 y2)) = true →
      remaining (NextFragment (NextFragment^[k] (initialize_line self x1 y1 x2 y2)))
        < remaining (NextFragment^[k] (initialize_line self x1 y1 x2 y2)) := by
  refine ⟨⟨_, _, _, AllFragments_initialize_line self x1 y1 x2 y2⟩, ?_⟩
  intro k
  rw [initialize_line_eq_reached]
  rcases Nat.lt_trichotomy k (majorLen x1 y1 x2 y2) with hlt | heq | hgt
  · intro _
    rw [iterate_reached _ _ _ _ _ _ (le_of_lt hlt), NextFragment_reached_step _ _ _ _ _ _ _ hlt,
      remaining_reached _ _ _ _ _ _ _ (le_of_lt hlt), remaining_reached _ _ _ _ _ _ _ hlt]
    omega
  · intro _
    rw [iterate_reached _ _ _ _ _ _ (le_of_eq heq), heq, NextFragment_reached_stop,
      remaining_reached _ _ _ _ _ _ _ (le_refl _), remaining_reached _ _ _ _ _ _ _ (le_refl _)]
    simp
  · obtain ⟨j, rfl⟩ : ∃ j, k = majorLen x1 y1 x2 y2 + 1 + j := ⟨k - (majorLen x1 y1 x2 y2 + 1), by omega⟩
    rw [iterate_reached_exhausted]
    simp [MoreFragments, reached]

/-- C10: `AllFragments` consumes the rasterizer: after it has returned, `MoreFragments()` is
false, the accessors `x()`, `y()` and `Fragment()` throw, and a second `AllFragments` call
without re-initialisation returns the empty vector. -/
theorem C10_drain_consumes (self : LineRasterizer) (x1 y1 x2 y2 : Int) :
    ∃ (fuel : Nat) (points : List vec3) (after : LineRasterizer),
      (∀ extra : Nat, AllFragments (fuel + extra) (initialize_line self x1 y1 x2 y2)
        = some (Except.ok points, after)) ∧
      MoreFragments after = false ∧
      x after = Except.error ⟨"LineRasterizer::x(): Invalid State"⟩ ∧
      y after = Except.error ⟨"LineRasterizer::y(): Invalid State"⟩ ∧
      (∃ e, Fragment after = Except.error e) ∧
      ∀ fuel2 : Nat, AllFragments (fuel2 + 1) after = some (Except.ok [], after) := by
  refine ⟨_, _, _, AllFragments_initialize_line self x1 y1 x2 y2, ?_, ?_, ?_, ?_, ?_⟩
  · simp [MoreFragments, reached]
  · simp [x, reached]
  · simp [y, reached]
  · simp [Fragment, x, reached]
  · intro fuel2
    exact AllFragments_while_invalid _ _ _ rfl

/-- C11, as stated, fails where the conversion to `float` rounds: the horizontal line
`(16777216, 0) -> (16777219, 0)` yields the x-coordinates `16777216`, `16777216`,
`16777218`, `16777220`, not the lattice points `16777216 .. 16777219`. -/
theorem C11_axis_aligned_lines_counterexample :
    (AllFragments 6 (initialize_line zeroed 16777216 0 16777219 0)).map Prod.fst
      = some (Except.ok [⟨16777216, 0, 0⟩, ⟨16777216, 0, 0⟩, ⟨16777218, 0, 0⟩,
          ⟨16777220, 0, 0⟩]) ∧
    ([⟨16777216, 0, 0⟩, ⟨16777216, 0, 0⟩, ⟨16777218, 0, 0⟩, ⟨16777220, 0, 0⟩] : List vec3)
      ≠ (List.range (Int.natAbs ((16777219 : Int) - 16777216) + 1)).map
          (fun k : Nat =>
            (⟨16777216 + (if (16777219 : Int) ≥ 16777216 then 1 else -1) * (k : Int), 0, 0⟩ : vec3)) := by
  refine ⟨by rfl, by decide⟩

/-- C11, amended: for coordinates at most `2 ^ 24 = 16777216` in magnitude an axis-aligned
line yields exactly the lattice points of the segment in travel order: for `y1 = y2` the
points `(x1 + s * k, y1, 0)`, `k = 0 .. |x2 - x1|`, and for `x1 = x2` the points
`(x1, y1 + t * k, 0)`, `k = 0 .. |y2 - y1|`, with `s`, `t` the travel directions; in
particular `(0,0) -> (3,0)` and `(0,0) -> (0,3)` give the four points each. -/
theorem C11_axis_aligned_lines (self : LineRasterizer) (x1 y1 x2 y2 : Int)
    (hx1 : Int.natAbs x1 ≤ 16777216) (hy1 : Int.natAbs y1 ≤ 16777216)
    (hx2 : Int.natAbs x2 ≤ 16777216) (hy2 : Int.natAbs y2 ≤ 16777216) :
    (∃ (fuel : Nat) (after : LineRasterizer), ∀ extra : Nat,
      AllFragments (fuel + extra) (initialize_line self x1 y1 x2 y1)
        = some (Except.ok ((List.range (Int.natAbs (x2 - x1) + 1)).map
            (fun k : Nat => (⟨x1 + (if x2 ≥ x1 then 1 else -1) * (k : Int), y1, 0⟩ : vec3))),
          after)) ∧
    (∃ (fuel : Nat) (after : LineRasterizer), ∀ extra : Nat,
      AllFragments (fuel + extra) (initialize_line self x1 y1 x1 y2)
        = some (Except.ok ((List.range (Int.natAbs (y2 - y1) + 1)).map
            (fun k : Nat => (⟨x1, y1 + (if y2 ≥ y1 then 1 else -1) * (k : Int), 0⟩ : vec3))),
          after)) ∧
    (∃ (fuel : Nat) (after : LineRasterizer), ∀ extra : Nat,
      AllFragments (fuel + extra) (initialize_line self 0 0 3 0)
        = some (Except.ok [⟨0, 0, 0⟩, ⟨1, 0, 0⟩, ⟨2, 0, 0⟩, ⟨3, 0, 0⟩], after)) ∧
    (∃ (fuel : Nat) (after : LineRasterizer), ∀ extra : Nat,
      AllFragments (fuel + extra) (initialize_line self 0 0 0 3)
        = some (Except.ok [⟨0, 0, 0⟩, ⟨0, 1, 0⟩, ⟨0, 2, 0⟩, ⟨0, 3, 0⟩], after)) := by
  have hor : ∀ a b c : Int, Int.natAbs a ≤ 16777216 → Int.natAbs b ≤ 16777216 →
      Int.natAbs c ≤ 16777216 → ∀ extra : Nat,
      AllFragments (majorLen a b c b + 2 + extra) (initialize_line self a b c b)
        = some (Except.ok ((List.range (Int.natAbs (c - a) + 1)).map
            (fun k : Nat => (⟨a + (if c ≥ a then 1 else -1) * (k : Int), b, 0⟩ : vec3))),
          reached a b c b (majorLen a b c b) (minorLen a b c b) false) := by
    intro a b c ha hb hc extra
    rw [AllFragments_initialize_line_exact self a b c b ha hb hc hb]
    have hA : majorLen a b c b = Int.natAbs (c - a) := by rw [majorLen_eq_max]; simp
    rw [hA]
    congr 3
    exact List.map_congr_left fun k _ => linePoint_horizontal a b c k
  have ver : ∀ a b c : Int, Int.natAbs a ≤ 16777216 → Int.natAbs b ≤ 16777216 →
      Int.natAbs c ≤ 16777216 → ∀ extra : Nat,
      AllFragments (majorLen a b a c + 2 + extra) (initialize_line self a b a c)
        = some (Except.ok ((List.range (Int.natAbs (c - b) + 1)).map
            (fun k : Nat => (⟨a, b + (if c ≥ b then 1 else -1) * (k : Int), 0⟩ : vec3))),
          reached a b a c (majorLen a b a c) (minorLen a b a c) false) := by
    intro a b c ha hb hc extra
    rw [AllFragments_initialize_line_exact self a b a c ha hb ha hc]
    have hA : majorLen a b a c = Int.natAbs (c - b) := by rw [majorLen_eq_max]; simp
    rw [hA]
    congr 3
    exact List.map_congr_left fun k hk =>
      linePoint_vertical a b c k (by rw [List.mem_range] at hk; omega)
  refine ⟨⟨_, _, hor x1 y1 x2 hx1 hy1 hx2⟩, ⟨_, _, ver x1 y1 y2 hx1 hy1 hy2⟩,
    ⟨_, _, hor 0 0 3 (by decide) (by decide) (by decide)⟩,
    ⟨_, _, ver 0 0 3 (by decide) (by decide) (by decide)⟩⟩

/-- C11, witness of the amended statement: the lines `(0,0) -> (3,0)` and `(0,0) -> (0,3)`. -/
theorem C11_axis_aligned_lines_witness :
    (∃ (fuel : Nat) (after : LineRasterizer), ∀ extra : Nat,
      AllFragments (fuel + extra) (initialize_line zeroed 0 0 3 0)
        = some (Except.ok [⟨0, 0, 0⟩, ⟨1, 0, 0⟩, ⟨2, 0, 0⟩, ⟨3, 0, 0⟩], after)) ∧
    (∃ (fuel : Nat) (after : LineRasterizer), ∀ extra : Nat,
      AllFragments (fuel + extra) (initialize_line zeroed 0 0 0 3)
        = some (Except.ok [⟨0, 0, 0⟩, ⟨0, 1, 0⟩, ⟨0, 2, 0⟩, ⟨0, 3, 0⟩], after)) :=
  (C11_axis_aligned_lines zeroed 0 0 3 3 (by decide) (by decide) (by decide) (by decide)).2.2

/-- C12: for the line `(0,0) -> (5,2)` the x-dominant inner loop is selected and the drain
returns the six fragments `(0,0) (1,0) (2,1) (3,1) (4,2) (5,2)`, each with `z = 0`: the
x-coordinates are `0 .. 5` in order, and `y` grows by one at exactly two of the five steps
and stays at the other three. -/
theorem C12_line_0_0_5_2 (self : LineRasterizer) :
    (initialize_line self 0 0 5 2).innerloop = Innerloop.x_dominant_innerloop ∧
    ∃ (fuel : Nat) (points : List vec3) (after : LineRasterizer),
      (∀ extra : Nat, AllFragments (fuel + extra) (initialize_line self 0 0 5 2)
        = some (Except.ok points, after)) ∧
      points = [⟨0, 0, 0⟩, ⟨1, 0, 0⟩, ⟨2, 1, 0⟩, ⟨3, 1, 0⟩, ⟨4, 2, 0⟩, ⟨5, 2, 0⟩] ∧
      points.length = 6 ∧
      points.map (fun p => p.x) = [0, 1, 2, 3, 4, 5] ∧
      List.zipWith (fun p q => q.y - p.y) points points.tail = [0, 1, 0, 1, 0] ∧
      points.map (fun p => p.z) = [0, 0, 0, 0, 0, 0] := by
  constructor
  · rw [initialize_line_eq_reached]
    rfl
  · have h : (List.range (majorLen 0 0 5 2 + 1)).map (lineFragment 0 0 5 2)
        = [⟨0, 0, 0⟩, ⟨1, 0, 0⟩, ⟨2, 1, 0⟩, ⟨3, 1, 0⟩, ⟨4, 2, 0⟩, ⟨5, 2, 0⟩] := by
      rfl
    refine ⟨_, _, _, AllFragments_initialize_line self 0 0 5 2, h, ?_, ?_, ?_, ?_⟩ <;>
      rw [h] <;> rfl

/-- C14: EXHAUSTED is terminal.  A rasterizer initialised for any line does become
exhausted; in every state it reaches by `NextFragment` calls, once `valid` is false any
number of further `NextFragment` calls leaves the whole state (so `valid`, `x_current`,
`y_current` and `d`) as it is; and in no state at all does `NextFragment` turn `valid` from
false to true. -/
theorem C14_exhausted_is_terminal (self : LineRasterizer) (x1 y1 x2 y2 : Int) :
    (∃ k : Nat, (NextFragment^[k] (initialize_line self x1 y1 x2 y2)).valid = false) ∧
    (∀ k n : Nat, (NextFragment^[k] (initialize_line self x1 y1 x2 y2)).valid = false →
      NextFragment^[n] (NextFragment^[k] (initialize_line self x1 y1 x2 y2))
        = NextFragment^[k] (initialize_line self x1 y1 x2 y2)) ∧
    (∀ s : LineRasterizer, s.valid = false → (NextFragment s).valid = false) := by
  refine ⟨⟨majorLen x1 y1 x2 y2 + 1, ?_⟩, ?_, ?_⟩
  · rw [iterate_initialize_line]
    simp [reached]
  · intro k n hk
    rw [iterate_initialize_line] at hk ⊢
    have hgt : ¬ k ≤ majorLen x1 y1 x2 y2 := by
      intro hle
      simp [reached, hle] at hk
    rw [Nat.min_eq_right (by omega), decide_eq_false hgt]
    induction n with
    | zero => rfl
    | succ n ih => rw [Function.iterate_succ_apply', ih, NextFragment_reached_stop]
  · intro s hs
    unfold NextFragment
    cases hmode : s.innerloop
    · simp only [x_dominant_innerloop]
      by_cases hstop : s.x_current = s.x_stop
      · simp [hstop]
      · by_cases hd : s.d > 0 <;> simp [hstop, hd, hs]
    · simp only [y_dominant_innerloop]
      by_cases hstop : s.y_current = s.y_stop
      · simp [hstop]
      · by_cases hd : s.d > 0 <;> simp [hstop, hd, hs]

/-- C15: the y-dominant inner loop is the x-dominant one with the axes exchanged (on the
state with every x member and y member exchanged it does what the x-dominant loop does on
the state itself), and rasterization commutes with exchanging the axes: the drain of
`(y1, x1) -> (y2, x2)` is the drain of `(x1, y1) -> (x2, y2)` with the x and y components of
every point exchanged.  In particular `(0,0) -> (2,5)` gives the transposed fragments of
`(0,0) -> (5,2)`. -/
theorem C15_axis_exchange (self other : LineRasterizer) (x1 y1 x2 y2 : Int) :
    (∀ s : LineRasterizer, y_dominant_innerloop (mirror s) = mirror (x_dominant_innerloop s)) ∧
    (∀ s : LineRasterizer, x_dominant_innerloop (mirror s) = mirror (y_dominant_innerloop s)) ∧
    (∃ (fuel : Nat) (points : List vec3) (after after2 : LineRasterizer),
      (∀ extra : Nat, AllFragments (fuel + extra) (initialize_line self x1 y1 x2 y2)
        = some (Except.ok points, after)) ∧
      (∀ extra : Nat, AllFragments (fuel + extra) (initialize_line other y1 x1 y2 x2)
        = some (Except.ok (points.map (fun p => (⟨p.y, p.x, p.z⟩ : vec3))), after2))) ∧
    (∃ (fuel : Nat) (after after2 : LineRasterizer),
      (∀ extra : Nat, AllFragments (fuel + extra) (initialize_line self 0 0 5 2)
        = some (Except.ok [⟨0, 0, 0⟩, ⟨1, 0, 0⟩, ⟨2, 1, 0⟩, ⟨3, 1, 0⟩, ⟨4, 2, 0⟩, ⟨5, 2, 0⟩],
            after)) ∧
      (∀ extra : Nat, AllFragments (fuel + extra) (initialize_line other 0 0 2 5)
        = some (Except.ok [⟨0, 0, 0⟩, ⟨0, 1, 0⟩, ⟨1, 2, 0⟩, ⟨1, 3, 0⟩, ⟨2, 4, 0⟩, ⟨2, 5, 0⟩],
            after2))) := by
  have swap : ∀ a b c d : Int, ∀ extra : Nat,
      AllFragments (majorLen a b c d + 2 + extra) (initialize_line other b a d c)
        = some (Except.ok (((List.range (majorLen a b c d + 1)).map (lineFragment a b c d)).map
            (fun p => (⟨p.y, p.x, p.z⟩ : vec3))),
          reached b a d c (majorLen a b c d) (minorLen b a d c) false) := by
    intro a b c d extra
    have hA : majorLen b a d c = majorLen a b c d := by
      rw [majorLen_eq_max, majorLen_eq_max, max_comm]
    have h := AllFragments_initialize_line other b a d c extra
    rw [hA] at h
    rw [h, List.map_map]
    congr 3
    exact List.map_congr_left fun k hk =>
      lineFragment_transpose a b c d k (by rw [List.mem_range] at hk; omega)
  refine ⟨y_dominant_innerloop_mirror, x_dominant_innerloop_mirror,
    ⟨_, _, _, _, AllFragments_initialize_line self x1 y1 x2 y2, swap x1 y1 x2 y2⟩,
    ⟨_, _, _, AllFragments_initialize_line self 0 0 5 2, swap 0 0 5 2⟩⟩

/-- C16, as stated, fails for the `NextFragment` call made at the stop coordinate: after one
step of the line `(0,0) -> (1,1)` the rasterizer stands on `(1,1)` with `d = 1 > 0`, that is
`2 * |dy| * (k + 1) > |dx| * (2 * m + 1)` for `k = m = 1`, and yet the next call does not
step the minor axis (it only clears `valid`). -/
theorem C16_decision_variable_counterexample :
    (NextFragment^[1] (initialize_line zeroed 0 0 1 1)).x_current = 1 ∧
    (NextFragment^[1] (initialize_line zeroed 0 0 1 1)).y_current = 1 ∧
    (NextFragment^[1] (initialize_line zeroed 0 0 1 1)).d = 1 ∧
    (2 * 1 * (1 + 1) : Int) > 1 * (2 * 1 + 1) ∧
    (NextFragment (NextFragment^[1] (initialize_line zeroed 0 0 1 1))).y_current = 1 ∧
    (NextFragment (NextFragment^[1] (initialize_line zeroed 0 0 1 1))).valid = false := by
  refine ⟨by rfl, by rfl, by rfl, by decide, by rfl, by rfl⟩

/-- C16, amended: for end points with `|x2 - x1| < 2 ^ 30` and `|y2 - y1| < 2 ^ 30`, in
every state `s` reached from the initialised line the decision variable is
`d = 2 * |dy| * (k + 1) - |dx| * (2 * m + 1)` with `k = |x_current - x_start|` and
`m = |y_current - y_start|` in x-dominant mode (axes swapped in y-dominant mode), a value
within the range of a 32-bit `int`; and at a `NextFragment` call made while the dominant
coordinate has not reached its stop coordinate the minor coordinate moves by its step
exactly when `2 * |dy| * (k + 1) > |dx| * (2 * m + 1)` and stays exactly when it is not. -/
theorem C16_decision_variable (self : LineRasterizer) (x1 y1 x2 y2 : Int) (j : Nat)
    (hdx : Int.natAbs (x2 - x1) ≤ 1073741823) (hdy : Int.natAbs (y2 - y1) ≤ 1073741823)
    (s : LineRasterizer) (hs : s = NextFragment^[j] (initialize_line self x1 y1 x2 y2)) :
    int32 s.d = s.d ∧
    (Int.natAbs (x2 - x1) ≥ Int.natAbs (y2 - y1) →
      s.innerloop = Innerloop.x_dominant_innerloop ∧
      s.d = 2 * (Int.natAbs (y2 - y1) : Int) * ((Int.natAbs (s.x_current - s.x_start) : Int) + 1)
          - (Int.natAbs (x2 - x1) : Int) * (2 * (Int.natAbs (s.y_current - s.y_start) : Int) + 1) ∧
      (s.x_current ≠ s.x_stop →
        ((NextFragment s).y_current = s.y_current + s.y_step ↔
          2 * (Int.natAbs (y2 - y1) : Int) * ((Int.natAbs (s.x_current - s.x_start) : Int) + 1)
            > (Int.natAbs (x2 - x1) : Int)
              * (2 * (Int.natAbs (s.y_current - s.y_start) : Int) + 1)) ∧
        ((NextFragment s).y_current = s.y_current ↔
          ¬ 2 * (Int.natAbs (y2 - y1) : Int) * ((Int.natAbs (s.x_current - s.x_start) : Int) + 1)
            > (Int.natAbs (x2 - x1) : Int)
              * (2 * (Int.natAbs (s.y_current - s.y_start) : Int) + 1)))) ∧
    (Int.natAbs (x2 - x1) < Int.natAbs (y2 - y1) →
      s.innerloop = Innerloop.y_dominant_innerloop ∧
      s.d = 2 * (Int.natAbs (x2 - x1) : Int) * ((Int.natAbs (s.y_current - s.y_start) : Int) + 1)
          - (Int.natAbs (y2 - y1) : Int) * (2 * (Int.natAbs (s.x_current - s.x_start) : Int) + 1) ∧
      (s.y_current ≠ s.y_stop →
        ((NextFragment s).x_current = s.x_current + s.x_step ↔
          2 * (Int.natAbs (x2 - x1) : Int) * ((Int.natAbs (s.y_current - s.y_start) : Int) + 1)
            > (Int.natAbs (y2 - y1) : Int)
              * (2 * (Int.natAbs (s.x_current - s.x_start) : Int) + 1)) ∧
        ((NextFragment s).x_current = s.x_current ↔
          ¬ 2 * (Int.natAbs (x2 - x1) : Int) * ((Int.natAbs (s.y_current - s.y_start) : Int) + 1)
            > (Int.natAbs (y2 - y1) : Int)
              * (2 * (Int.natAbs (s.x_current - s.x_start) : Int) + 1)))) := by
  refine ⟨?_, ?_⟩
  · obtain ⟨b1, b2⟩ := iterate_d_bounds self x1 y1 x2 y2 j
    rw [← hs] at b1 b2
    have hA := majorLen_eq_max x1 y1 x2 y2
    have hB := minorLen_eq_min x1 y1 x2 y2
    exact int32_exact _ (by omega) (by omega)
  rw [iterate_initialize_line] at hs
  have hm := minorSteps_nonneg (majorLen x1 y1 x2 y2) (minorLen x1 y1 x2 y2)
    (min j (majorLen x1 y1 x2 y2))
  generalize minorSteps (majorLen x1 y1 x2 y2) (minorLen x1 y1 x2 y2)
    (min j (majorLen x1 y1 x2 y2)) = m at hs hm
  generalize min j (majorLen x1 y1 x2 y2) = k at hs
  generalize decide (j ≤ majorLen x1 y1 x2 y2) = v at hs
  obtain ⟨offx, offy⟩ := reached_offsets x1 y1 x2 y2 k m v hm
  have hsx := stepOf_cases (x2 - x1)
  have hsy := stepOf_cases (y2 - y1)
  subst hs
  constructor
  · intro hdom
    have hd : xDominant x1 y1 x2 y2 = true := (xDominant_iff x1 y1 x2 y2).2 hdom
    obtain ⟨ok, om⟩ := offx hd
    have hA : majorLen x1 y1 x2 y2 = Int.natAbs (x2 - x1) := by simp [majorLen, hd]
    have hB : minorLen x1 y1 x2 y2 = Int.natAbs (y2 - y1) := by simp [minorLen, hd]
    have e1 : (reached x1 y1 x2 y2 k m v).x_start = x1 := rfl
    have e2 : (reached x1 y1 x2 y2 k m v).y_start = y1 := rfl
    rw [e1, e2, ok, om]
    have ed : (reached x1 y1 x2 y2 k m v).d
        = 2 * (Int.natAbs (y2 - y1) : Int) * ((k : Int) + 1)
          - (Int.natAbs (x2 - x1) : Int) * (2 * m + 1) := by
      simp only [reached, hA, hB]
    refine ⟨by simp [reached, hd], ed, ?_⟩
    intro hne
    have hstep : (NextFragment (reached x1 y1 x2 y2 k m v)).y_current
        = if (reached x1 y1 x2 y2 k m v).d > 0
          then (reached x1 y1 x2 y2 k m v).y_current + (reached x1 y1 x2 y2 k m v).y_step
          else (reached x1 y1 x2 y2 k m v).y_current := by
      have hmode : (reached x1 y1 x2 y2 k m v).innerloop = Innerloop.x_dominant_innerloop := by
        simp [reached, hd]
      simp only [NextFragment, hmode, x_dominant_innerloop, if_neg hne]
      split <;> rfl
    have hys : (reached x1 y1 x2 y2 k m v).y_step = stepOf (y2 - y1) := rfl
    rw [hstep, ed, hys]
    rcases hsy with ⟨sy, _⟩ | ⟨sy, _⟩ <;> rw [sy] <;> constructor <;> split <;> simp_all
  · intro hdom
    have hd : xDominant x1 y1 x2 y2 = false := by
      rw [← Bool.not_eq_true, xDominant_iff]; omega
    obtain ⟨ok, om⟩ := offy hd
    have hA : majorLen x1 y1 x2 y2 = Int.natAbs (y2 - y1) := by simp [majorLen, hd]
    have hB : minorLen x1 y1 x2 y2 = Int.natAbs (x2 - x1) := by simp [minorLen, hd]
    have e1 : (reached x1 y1 x2 y2 k m v).x_start = x1 := rfl
    have e2 : (reached x1 y1 x2 y2 k m v).y_start = y1 := rfl
    rw [e1, e2, ok, om]
    have ed : (reached x1 y1 x2 y2 k m v).d
        = 2 * (Int.natAbs (x2 - x1) : Int) * ((k : Int) + 1)
          - (Int.natAbs (y2 - y1) : Int) * (2 * m + 1) := by
      simp only [reached, hA, hB]
    refine ⟨by simp [reached, hd], ed, ?_⟩
    intro hne
    have hstep : (NextFragment (reached x1 y1 x2 y2 k m v)).x_current
        = if (reached x1 y1 x2 y2 k m v).d > 0
          then (reached x1 y1 x2 y2 k m v).x_current + (reached x1 y1 x2 y2 k m v).x_step
          else (reached x1 y1 x2 y2 k m v).x_current := by
      have hmode : (reached x1 y1 x2 y2 k m v).innerloop = Innerloop.y_dominant_innerloop := by
        simp [reached, hd]
      simp only [NextFragment, hmode, y_dominant_innerloop, if_neg hne]
      split <;> rfl
    have hxs : (reached x1 y1 x2 y2 k m v).x_step = stepOf (x2 - x1) := rfl
    rw [hstep, ed, hxs]
    rcases hsx with ⟨sx, _⟩ | ⟨sx, _⟩ <;> rw [sx] <;> constructor <;> split <;> simp_all

/-- C16, witness of the amended statement: the state after one call on the line
`(0,0) -> (5,2)` is a reached state, and its decision variable has the stated value. -/
theorem C16_decision_variable_witness :
    NextFragment^[1] (initialize_line zeroed 0 0 5 2)
      = NextFragment^[1] (initialize_line zeroed 0 0 5 2) ∧
    (NextFragment^[1] (initialize_line zeroed 0 0 5 2)).d
      = 2 * (Int.natAbs (2 - 0) : Int)
          * ((Int.natAbs ((NextFragment^[1] (initialize_line zeroed 0 0 5 2)).x_current
              - (NextFragment^[1] (initialize_line zeroed 0 0 5 2)).x_start) : Int) + 1)
        - (Int.natAbs (5 - 0) : Int)
          * (2 * (Int.natAbs ((NextFragment^[1] (initialize_line zeroed 0 0 5 2)).y_current
              - (NextFragment^[1] (initialize_line zeroed 0 0 5 2)).y_start) : Int) + 1) :=
  ⟨rfl, ((C16_decision_variable zeroed 0 0 5 2 1 (by decide) (by decide) _ rfl).2.1
    (by decide)).2.1⟩

/-- C17: in any state `NextFragment` changes at most `x_current`, `y_current`, `d` and
`valid`: every other member (the stored start and stop points, the absolute deltas `dx` and
`dy`, the steps, the doubled deltas and the selected inner loop) is the same after the call
as before, hence after any number of calls, so the mode selected by `initialize_line` stays
active for the whole line session.  `MoreFragments()` is a `const` member function that
only reads `valid`. -/
theorem C17_next_fragment_frame (self : LineRasterizer) :
    ((NextFragment self).x_start = self.x_start ∧
      (NextFragment self).y_start = self.y_start ∧
      (NextFragment self).x_stop = self.x_stop ∧
      (NextFragment self).y_stop = self.y_stop ∧
      (NextFragment self).dx = self.dx ∧
      (NextFragment self).dy = self.dy ∧
      (NextFragment self).x_step = self.x_step ∧
      (NextFragment self).y_step = self.y_step ∧
      (NextFragment self).abs_2dx = self.abs_2dx ∧
      (NextFragment self).abs_2dy = self.abs_2dy ∧
      (NextFragment self).innerloop = self.innerloop) ∧
    (∀ k : Nat,
      (NextFragment^[k] self).x_start = self.x_start ∧
      (NextFragment^[k] self).y_start = self.y_start ∧
      (NextFragment^[k] self).x_stop = self.x_stop ∧
      (NextFragment^[k] self).y_stop = self.y_stop ∧
      (NextFragment^[k] self).dx = self.dx ∧
      (NextFragment^[k] self).dy = self.dy ∧
      (NextFragment^[k] self).x_step = self.x_step ∧
      (NextFragment^[k] self).y_step = self.y_step ∧
      (NextFragment^[k] self).abs_2dx = self.abs_2dx ∧
      (NextFragment^[k] self).abs_2dy = self.abs_2dy ∧
      (NextFragment^[k] self).innerloop = self.innerloop) ∧
    (∀ (x1 y1 x2 y2 : Int) (k : Nat),
      (NextFragment^[k] (initialize_line self x1 y1 x2 y2)).innerloop
        = (initialize_line self x1 y1 x2 y2).innerloop) ∧
    MoreFragments self = self.valid := by
  refine ⟨?_, fun k => ?_, fun x1 y1 x2 y2 k => ?_, rfl⟩
  · exact NextFragment_frame self
  · exact iterate_frame self k
  · exact (iterate_frame _ k).2.2.2.2.2.2.2.2.2.2

/-- C19, as stated, fails where the conversion to `float` rounds: on the line
`(16777216, 0) -> (16777219, 0)` the fragment of index `1` is `(16777216, 0, 0)`, while the
closed form has `x = x1 + 1 = 16777217`. -/
theorem C19_closed_form_counterexample :
    (AllFragments 6 (initialize_line zeroed 16777216 0 16777219 0)).map Prod.fst
      = some (Except.ok [⟨16777216, 0, 0⟩, ⟨16777216, 0, 0⟩, ⟨16777218, 0, 0⟩,
          ⟨16777220, 0, 0⟩]) ∧
    ([⟨16777216, 0, 0⟩, ⟨16777216, 0, 0⟩, ⟨16777218, 0, 0⟩, ⟨16777220, 0, 0⟩] : List vec3)[1]?
      = some ⟨16777216, 0, 0⟩ ∧
    (16777216 : Int) ≠ 16777216 + (if (16777219 : Int) - 16777216 ≥ 0 then 1 else -1) * ((1 : Nat) : Int) := by
  refine ⟨by rfl, by rfl, by decide⟩

/-- C19, amended: for end points whose four coordinates are at most `2 ^ 24 = 16777216` in
magnitude, the drain is the closed-form rasterization that rounds the ideal line to the
nearest pixel, exact ties towards the start point: for `|dx| >= |dy|`, `dx != 0` the `k`-th
fragment is `(x1 + sx * k, y1 + sy * ceil((2 * |dy| * k - |dx|) / (2 * |dx|)), 0)` for every
`k <= |dx|`, and with the axes exchanged for `|dy| > |dx|`; the quotient is taken in the
rational numbers. -/
theorem C19_closed_form (self : LineRasterizer) (x1 y1 x2 y2 : Int)
    (hx1 : Int.natAbs x1 ≤ 16777216) (hy1 : Int.natAbs y1 ≤ 16777216)
    (hx2 : Int.natAbs x2 ≤ 16777216) (hy2 : Int.natAbs y2 ≤ 16777216) :
    ∃ (fuel : Nat) (points : List vec3) (after : LineRasterizer),
      (∀ extra : Nat, AllFragments (fuel + extra) (initialize_line self x1 y1 x2 y2)
        = some (Except.ok points, after)) ∧
      (Int.natAbs (x2 - x1) ≥ Int.natAbs (y2 - y1) → x2 - x1 ≠ 0 →
        ∀ k : Nat, k ≤ Int.natAbs (x2 - x1) →
          points[k]? = some
            ⟨x1 + (if x2 - x1 ≥ 0 then 1 else -1) * (k : Int),
              y1 + (if y2 - y1 ≥ 0 then 1 else -1)
                * ⌈(((2 * (Int.natAbs (y2 - y1) : Int) * (k : Int)
                      - (Int.natAbs (x2 - x1) : Int) : Int) : ℚ))
                    / (((2 * (Int.natAbs (x2 - x1) : Int) : Int) : ℚ))⌉,
              0⟩) ∧
      (Int.natAbs (y2 - y1) > Int.natAbs (x2 - x1) →
        ∀ k : Nat, k ≤ Int.natAbs (y2 - y1) →
          points[k]? = some
            ⟨x1 + (if x2 - x1 ≥ 0 then 1 else -1)
                * ⌈(((2 * (Int.natAbs (x2 - x1) : Int) * (k : Int)
                      - (Int.natAbs (y2 - y1) : Int) : Int) : ℚ))
                    / (((2 * (Int.natAbs (y2 - y1) : Int) : Int) : ℚ))⌉,
              y1 + (if y2 - y1 ≥ 0 then 1 else -1) * (k : Int),
              0⟩) := by
  refine ⟨_, _, _, AllFragments_initialize_line_exact self x1 y1 x2 y2 hx1 hy1 hx2 hy2, ?_, ?_⟩
  · intro hdom hne k hk
    have hd : xDominant x1 y1 x2 y2 = true := (xDominant_iff x1 y1 x2 y2).2 hdom
    have hA : majorLen x1 y1 x2 y2 = Int.natAbs (x2 - x1) := by simp [majorLen, hd]
    have hB : minorLen x1 y1 x2 y2 = Int.natAbs (y2 - y1) := by simp [minorLen, hd]
    have hceil := minorSteps_eq_ceil (Int.natAbs (x2 - x1)) (Int.natAbs (y2 - y1)) hdom
      (by omega) k
    rw [List.getElem?_map, List.getElem?_range (by omega), Option.map_some']
    simp only [linePoint, current, reached, hd, if_true, hA, hB, stepOf, hceil]
  · intro hdom k hk
    have hd : xDominant x1 y1 x2 y2 = false := by
      rw [← Bool.not_eq_true, xDominant_iff]; omega
    have hA : majorLen x1 y1 x2 y2 = Int.natAbs (y2 - y1) := by simp [majorLen, hd]
    have hB : minorLen x1 y1 x2 y2 = Int.natAbs (x2 - x1) := by simp [minorLen, hd]
    have hceil := minorSteps_eq_ceil (Int.natAbs (y2 - y1)) (Int.natAbs (x2 - x1)) (by omega)
      (by omega) k
    rw [List.getElem?_map, List.getElem?_range (by omega), Option.map_some']
    simp only [linePoint, current, reached, hd, Bool.false_eq_true, if_false, hA, hB, stepOf,
      hceil]

/-- C19, witness of the amended statement: the fragment of index `3` of the line
`(0,0) -> (5,2)`. -/
theorem C19_closed_form_witness :
    ∃ (fuel : Nat) (points : List vec3) (after : LineRasterizer),
      (∀ extra : Nat, AllFragments (fuel + extra) (initialize_line zeroed 0 0 5 2)
        = some (Except.ok points, after)) ∧
      points[3]? = some
        ⟨0 + (if (5 : Int) - 0 ≥ 0 then 1 else -1) * ((3 : Nat) : Int),
          0 + (if (2 : Int) - 0 ≥ 0 then 1 else -1)
            * ⌈(((2 * (Int.natAbs ((2 : Int) - 0) : Int) * ((3 : Nat) : Int)
                  - (Int.natAbs ((5 : Int) - 0) : Int) : Int) : ℚ))
                / (((2 * (Int.natAbs ((5 : Int) - 0) : Int) : Int) : ℚ))⌉,
          0⟩ := by
  obtain ⟨fuel, points, after, hdrain, hx, _⟩ :=
    C19_closed_form zeroed 0 0 5 2 (by decide) (by decide) (by decide) (by decide)
  exact ⟨fuel, points, after, hdrain, hx (by decide) (by decide) 3 (by decide)⟩

/-- C20, as stated, fails where the conversion to `float` rounds: the last fragment of the
line `(16777216, 0) -> (16777219, 0)` has `x = 16777220`, beyond `max(x1, x2) = 16777219`. -/
theorem C20_bounding_box_counterexample :
    (AllFragments 6 (initialize_line zeroed 16777216 0 16777219 0)).map Prod.fst
      = some (Except.ok [⟨16777216, 0, 0⟩, ⟨16777216, 0, 0⟩, ⟨16777218, 0, 0⟩,
          ⟨16777220, 0, 0⟩]) ∧
    (⟨16777220, 0, 0⟩ : vec3) ∈ ([⟨16777216, 0, 0⟩, ⟨16777216, 0, 0⟩, ⟨16777218, 0, 0⟩, ⟨16777220, 0, 0⟩] : List vec3) ∧
    ¬ (16777220 : Int) ≤ max 16777216 16777219 := by
  refine ⟨by rfl, by decide, by decide⟩

/-- C20, amended: for end points whose four coordinates are at most `2 ^ 24 = 16777216` in
magnitude, every fragment lies in the bounding box of the two end points, on both axes:
the minor coordinate never passes its stop value. -/
theorem C20_bounding_box (self : LineRasterizer) (x1 y1 x2 y2 : Int)
    (hx1 : Int.natAbs x1 ≤ 16777216) (hy1 : Int.natAbs y1 ≤ 16777216)
    (hx2 : Int.natAbs x2 ≤ 16777216) (hy2 : Int.natAbs y2 ≤ 16777216) :
    ∃ (fuel : Nat) (points : List vec3) (after : LineRasterizer),
      (∀ extra : Nat, AllFragments (fuel + extra) (initialize_line self x1 y1 x2 y2)
        = some (Except.ok points, after)) ∧
      ∀ p ∈ points,
        min x1 x2 ≤ p.x ∧ p.x ≤ max x1 x2 ∧ min y1 y2 ≤ p.y ∧ p.y ≤ max y1 y2 ∧ p.z = 0 := by
  refine ⟨_, _, _, AllFragments_initialize_line_exact self x1 y1 x2 y2 hx1 hy1 hx2 hy2, ?_⟩
  intro p hp
  obtain ⟨k, hk, rfl⟩ := List.mem_map.1 hp
  rw [List.mem_range] at hk
  obtain ⟨h1, h2, h3, h4⟩ := linePoint_in_box x1 y1 x2 y2 k (by omega)
  exact ⟨h1, h2, h3, h4, rfl⟩

/-- C20, witness of the amended statement, on the line `(0,0) -> (5,2)`. -/
theorem C20_bounding_box_witness :
    ∃ (fuel : Nat) (points : List vec3) (after : LineRasterizer),
      (∀ extra : Nat, AllFragments (fuel + extra) (initialize_line zeroed 0 0 5 2)
        = some (Except.ok points, after)) ∧
      ∀ p ∈ points,
        min 0 5 ≤ p.x ∧ p.x ≤ max 0 5 ∧ min 0 2 ≤ p.y ∧ p.y ≤ max 0 2 ∧ p.z = 0 :=
  C20_bounding_box zeroed 0 0 5 2 (by decide) (by decide) (by decide) (by decide)
